import Mathlib

/-!
Verification development for the deltadefi market-making bot
(`src/trading-bot`).  Python `Decimal` and `float` values are modelled as
exact rationals (`ℚ`); wall-clock timestamp fields that no claim depends on
are omitted from the embedded records.  Each definition names the source
function it embeds.
-/

namespace TradingBot

/-- Order states of the OMS state machine (bot/oms.py, `OrderState`). -/
inductive OrderState where
  | idle
  | pending
  | working
  | filled
  | cancelled
  | rejected
  | failed
  deriving DecidableEq, Repr

/-- Order side (bot/oms.py, `OrderSide`). -/
inductive OrderSide where
  | buy
  | sell
  deriving DecidableEq, Repr

/-- Order type (bot/oms.py, `OrderType`). -/
inductive OrderType where
  | limit
  | market
  deriving DecidableEq, Repr

/-- Position tracking record (bot/oms.py, `Position`); `last_update` and
`unrealized_pnl` (never written by `_update_position`) are omitted. -/
structure Position where
  symbol : String
  quantity : ℚ := 0
  avg_price : ℚ := 0
  realized_pnl : ℚ := 0
  deriving DecidableEq, Repr

/-- One fill recorded on an order (bot/oms.py, `add_fill`'s `fill_data`
dict), without the wall-clock timestamp. -/
structure FillData where
  quantity : ℚ
  price : ℚ
  trade_id : Option String
  fee : ℚ
  deriving DecidableEq, Repr

/-- OMS order record (bot/oms.py, `OMSOrder`), without the two wall-clock
timestamps. -/
structure OMSOrder where
  order_id : String
  symbol : String
  side : OrderSide
  order_type : OrderType := OrderType.limit
  quantity : ℚ
  price : Option ℚ := none
  state : OrderState := OrderState.idle
  filled_quantity : ℚ := 0
  avg_fill_price : ℚ := 0
  external_order_id : Option String := none
  error_message : Option String := none
  fills : List FillData := []
  deriving DecidableEq, Repr

/-- bot/oms.py, `OMSOrder.is_complete`. -/
def OMSOrder.isComplete (o : OMSOrder) : Bool :=
  o.state = OrderState.filled ∨ o.state = OrderState.cancelled ∨
    o.state = OrderState.rejected ∨ o.state = OrderState.failed

/-- The state-machine table (bot/oms.py, `OrderManagementSystem.__init__`,
`self.valid_transitions`). -/
def validTransitions : OrderState → List OrderState
  | OrderState.idle => [OrderState.pending, OrderState.rejected]
  | OrderState.pending => [OrderState.working, OrderState.rejected, OrderState.failed]
  | OrderState.working => [OrderState.filled, OrderState.cancelled, OrderState.rejected]
  | OrderState.filled => []
  | OrderState.cancelled => []
  | OrderState.rejected => []
  | OrderState.failed => []

/-- OMS position update on a fill (bot/oms.py,
`OrderManagementSystem._update_position`).  Returns the updated position
together with the pnl change forwarded to `risk_manager.update_pnl`
(`fill_pnl - fee` on the reducing branch, nothing otherwise). -/
def omsUpdatePosition (position : Position) (side : OrderSide)
    (quantity price fee : ℚ) : Position × ℚ :=
  let quantity_delta : ℚ := if side = OrderSide.buy then quantity else -quantity
  if position.quantity = 0 then
    ({ position with
        avg_price := price,
        quantity := position.quantity + quantity_delta }, 0)
  else if (position.quantity > 0 ∧ side = OrderSide.buy) ∨
      (position.quantity < 0 ∧ side = OrderSide.sell) then
    let old_notional := position.quantity * position.avg_price
    let new_notional := old_notional + quantity_delta * price
    ({ position with
        avg_price := |new_notional / (position.quantity + quantity_delta)|,
        quantity := position.quantity + quantity_delta }, 0)
  else
    let fill_pnl := quantity * (price - position.avg_price) *
      (if side = OrderSide.sell then -1 else 1)
    ({ position with
        realized_pnl := position.realized_pnl + fill_pnl,
        quantity := position.quantity + quantity_delta }, fill_pnl - fee)

/-- Position row as stored in the `positions` table
(bot/account_manager.py reads `quantity`, `avg_entry_price`,
`realized_pnl`). -/
structure PositionRow where
  quantity : ℚ := 0
  avg_entry_price : ℚ := 0
  realized_pnl : ℚ := 0
  deriving DecidableEq, Repr

/-- bot/account_manager.py, `PositionUpdate` (timestamp omitted). -/
structure PositionUpdate where
  quantity_delta : ℚ
  avg_price_update : ℚ
  realized_pnl : ℚ
  fill_id : String
  deriving DecidableEq, Repr

/-- bot/account_manager.py, `AccountFill` (the fields read by the
reconciler; status and timestamps omitted). -/
structure AccountFill where
  fill_id : String
  order_id : String
  symbol : String
  side : String
  price : ℚ
  quantity : ℚ
  commission : ℚ := 0
  commission_asset : String := ""
  deriving DecidableEq, Repr

/-- Reconciler position update (bot/account_manager.py,
`FillReconciler._update_position`).  `current` is the row read from the
`positions` table, defaulting to zeroes when absent; the function returns
the upserted row and the `PositionUpdate` value the source returns. -/
def reconUpdatePosition (current : PositionRow) (fill : AccountFill) :
    PositionRow × PositionUpdate :=
  let quantity_delta : ℚ := if fill.side = "buy" then fill.quantity else -fill.quantity
  let current_qty := current.quantity
  let current_avg_price := current.avg_entry_price
  let new_qty := current_qty + quantity_delta
  let realized_pnl : ℚ :=
    if current_qty ≠ 0 ∧ (decide (current_qty > 0) ≠ decide (quantity_delta > 0)) then
      let close_qty := min |quantity_delta| |current_qty|
      let rp := close_qty * (fill.price - current_avg_price)
      if current_qty < 0 then -rp else rp
    else 0
  let new_avg_price : ℚ :=
    if new_qty = 0 then 0
    else if (current_qty > 0 ∧ quantity_delta > 0) ∨
        (current_qty < 0 ∧ quantity_delta < 0) then
      (current_qty * current_avg_price + quantity_delta * fill.price) / new_qty
    else if |new_qty| < |current_qty| then current_avg_price
    else fill.price
  (⟨new_qty, new_avg_price, current.realized_pnl + realized_pnl⟩,
   ⟨quantity_delta, new_avg_price, realized_pnl, fill.fill_id⟩)

/-- Sign of a rational, used by the spec's position rule. -/
def qSign (q : ℚ) : ℚ := if q > 0 then 1 else if q < 0 then -1 else 0

/-- Modelled from the spec: the position update rule of §4.5 stated in the
spec's own words, used only as the comparison point for the source-derived
updaters.  Input `(q, avg, pnl)` and a signed fill `dq` at price `p`;
output `(new qty, new avg, new pnl)`. -/
def specPositionUpdate (q avg pnl dq p : ℚ) : ℚ × ℚ × ℚ :=
  if q = 0 then (q + dq, p, pnl)
  else if qSign dq = qSign q then
    (q + dq, (|q| * avg + |dq| * p) / (|q| + |dq|), pnl)
  else if |dq| ≤ |q| then
    (q + dq, avg, pnl + (p - avg) * min |dq| |q| * qSign q)
  else
    (q + dq, p, pnl + (p - avg) * |q| * qSign q)

/-- Claim C2 (code bug): on the failing input — a long position of 1 unit
with average entry 100, hit by a sell fill of 1 unit at 110 — the OMS
updater books realized pnl −10, while the spec's rule and the reconciler
updater book +10; moreover on a flipping sell of 3 units the OMS updater
leaves the average entry at 100 where the spec's rule sets it to the fill
price 110. -/
theorem C2_oms_position_update_contradicts_rule :
    (omsUpdatePosition ⟨"ADAUSDM", 1, 100, 0⟩ OrderSide.sell 1 110 0).1.realized_pnl = -10
    ∧ (reconUpdatePosition ⟨1, 100, 0⟩
        ⟨"F1", "O1", "ADAUSDM", "sell", 110, 1, 0, ""⟩).1.realized_pnl = 10
    ∧ (specPositionUpdate 1 100 0 (-1) 110).2.2 = 10
    ∧ (omsUpdatePosition ⟨"ADAUSDM", 1, 100, 0⟩ OrderSide.sell 3 110 0).1.avg_price = 100
    ∧ (specPositionUpdate 1 100 0 (-3) 110).2.1 = 110 := by
  refine ⟨?_, ?_, ?_, ?_, ?_⟩ <;>
    simp [omsUpdatePosition, reconUpdatePosition, specPositionUpdate, qSign] <;>
    norm_num

/-- Risk section of the configuration (bot/config.py, `RiskConfig`); only
the fields `check_risk` reads. -/
structure RiskSettings where
  emergency_stop : Bool := false
  max_position_size : ℚ := 5000
  max_daily_loss : ℚ := 1000
  max_open_orders : Int := 20
  deriving DecidableEq, Repr

/-- Trading section of the configuration (bot/config.py,
`TradingConfig`); only the fields the embedded functions read. -/
structure TradingSettings where
  max_skew : ℚ := 2000
  min_quote_size : ℚ := 10
  side_enable : List String := ["bid", "ask"]
  deriving DecidableEq, Repr

/-- Risk checks (bot/oms.py, `RiskManager.check_risk`).  Violation
messages keep the code's literal text up to the interpolated numbers,
which are elided; the midnight reset of `daily_pnl`
(`_update_daily_pnl`) is wall-clock driven and omitted.  Returns
`(is_valid, violations)`. -/
def checkRisk (risk : RiskSettings) (trading : TradingSettings)
    (dailyPnl : ℚ) (openOrderCount : Int)
    (order : OMSOrder) (position : Option Position) : Bool × List String :=
  let v0 : List String :=
    if risk.emergency_stop then ["Emergency stop is active"] else []
  let v1 : List String :=
    match position with
    | none => []
    | some pos =>
        let new_position_size : ℚ :=
          if order.side = OrderSide.buy then |pos.quantity| + order.quantity
          else |pos.quantity - order.quantity|
        if new_position_size > risk.max_position_size then
          ["Position size would exceed limit"]
        else []
  let v2 : List String :=
    if dailyPnl ≤ -risk.max_daily_loss then ["Daily loss limit exceeded"] else []
  let v3 : List String :=
    match position with
    | none => []
    | some pos =>
        if |pos.quantity| > trading.max_skew then ["Position skew too large"] else []
  let v4 : List String :=
    if order.quantity < trading.min_quote_size then ["Order quantity below minimum"] else []
  let v5 : List String :=
    if openOrderCount ≥ risk.max_open_orders then ["Too many open orders"] else []
  let violations := v0 ++ v1 ++ v2 ++ v3 ++ v4 ++ v5
  (violations.isEmpty, violations)

/-- Full OMS state (bot/oms.py, `OrderManagementSystem` plus its
`RiskManager`): the `orders` and `positions` dicts (as insertion-ordered
association lists) and the risk manager's `daily_pnl` and
`open_order_count`. -/
structure OMSState where
  orders : List (String × OMSOrder) := []
  positions : List (String × Position) := []
  dailyPnl : ℚ := 0
  openOrderCount : Int := 0
  deriving DecidableEq, Repr

/-- Python-dict lookup on an association list. -/
def lookupA {α : Type} (l : List (String × α)) (k : String) : Option α :=
  (l.find? (fun p => p.1 = k)).map Prod.snd

/-- Python-dict assignment on an association list: update in place when
the key exists, append otherwise. -/
def insertA {α : Type} (l : List (String × α)) (k : String) (v : α) :
    List (String × α) :=
  if (l.find? (fun p => p.1 = k)).isSome then
    l.map (fun p => if p.1 = k then (k, v) else p)
  else l ++ [(k, v)]

/-- A state transition performed on an order: (old state, new state). -/
abbrev Transition := OrderState × OrderState

/-- bot/oms.py, `OrderManagementSystem._transition_order_state`: set the
new state, apply the optional `external_order_id` / `error_message`
kwargs, and decrement the open-order counter (when positive) for
transitions to FAILED or REJECTED.  Returns the updated order, the
updated counter, and the performed transition. -/
def transitionOrderState (o : OMSOrder) (ns : OrderState)
    (ext err : Option String) (openOrderCount : Int) :
    OMSOrder × Int × Transition :=
  let o' := { o with
      state := ns,
      external_order_id := match ext with
        | some v => some v
        | none => o.external_order_id,
      error_message := match err with
        | some v => some v
        | none => o.error_message }
  let count' :=
    if (ns = OrderState.failed ∨ ns = OrderState.rejected) ∧ openOrderCount > 0 then
      openOrderCount - 1
    else openOrderCount
  (o', count', (o.state, ns))

/-- bot/oms.py, `OrderManagementSystem.submit_order`.  Returns the new
state, the performed transitions, and either the created order or the
message of the raised `ValueError`. -/
def submitOrder (risk : RiskSettings) (trading : TradingSettings)
    (s : OMSState) (oid symbol : String) (side : OrderSide) (otype : OrderType)
    (quantity : ℚ) (price : Option ℚ) :
    OMSState × List Transition × Except String OMSOrder :=
  let order : OMSOrder :=
    { order_id := oid, symbol := symbol, side := side, order_type := otype,
      quantity := quantity, price := price }
  let position := lookupA s.positions symbol
  let check := checkRisk risk trading s.dailyPnl s.openOrderCount order position
  if check.1 then
    let tr := transitionOrderState order OrderState.pending none none s.openOrderCount
    let s' := { s with
        orders := insertA s.orders oid tr.1,
        openOrderCount := tr.2.1 + 1 }
    (s', [tr.2.2], Except.ok tr.1)
  else
    let order' := { order with
        state := OrderState.rejected,
        error_message := some (String.intercalate "; " check.2) }
    let s' := { s with orders := insertA s.orders oid order' }
    (s', [(OrderState.idle, OrderState.rejected)],
      Except.error ("Order rejected: " ++ String.intercalate "; " check.2))

/-- bot/oms.py, `OrderManagementSystem.update_order_state`: a silent
no-op (no exception, no mutation) when the order id is unknown or the
requested transition is not in the table. -/
def updateOrderState (s : OMSState) (oid : String) (ns : OrderState)
    (ext err : Option String) : OMSState × List Transition :=
  match lookupA s.orders oid with
  | none => (s, [])
  | some o =>
      if ns ∈ validTransitions o.state then
        let tr := transitionOrderState o ns ext err s.openOrderCount
        ({ s with orders := insertA s.orders oid tr.1, openOrderCount := tr.2.1 },
         [tr.2.2])
      else (s, [])

/-- Position update step shared by `add_fill` paths (bot/oms.py: fetch or
create the `Position` for the symbol, apply `_update_position`, and feed
the pnl change to `risk_manager.update_pnl`). -/
def applyPositionUpdate (s : OMSState) (symbol : String) (side : OrderSide)
    (quantity price fee : ℚ) : OMSState :=
  let pos := (lookupA s.positions symbol).getD { symbol := symbol }
  let upd := omsUpdatePosition pos side quantity price fee
  { s with
      positions := insertA s.positions symbol upd.1,
      dailyPnl := s.dailyPnl + upd.2 }

/-- bot/oms.py, `OrderManagementSystem.add_fill`. -/
def addFill (s : OMSState) (oid : String) (fq fp : ℚ) (tid : Option String)
    (fee : ℚ) (fsym : Option String) (fside : Option OrderSide) :
    OMSState × List Transition :=
  match lookupA s.orders oid with
  | none =>
      match fsym, fside with
      | some symbol, some side => (applyPositionUpdate s symbol side fq fp fee, [])
      | _, _ => (s, [])
  | some o =>
      if o.filled_quantity + fq > o.quantity then (s, [])
      else
        let old_notional := o.filled_quantity * o.avg_fill_price
        let new_notional := old_notional + fq * fp
        let filled' := o.filled_quantity + fq
        let o₁ := { o with
            fills := o.fills ++ [⟨fq, fp, tid, fee⟩],
            filled_quantity := filled',
            avg_fill_price := if filled' > 0 then new_notional / filled'
              else o.avg_fill_price }
        let s₁ := { s with orders := insertA s.orders oid o₁ }
        let s₂ := applyPositionUpdate s₁ o.symbol o.side fq fp fee
        if o₁.filled_quantity ≥ o₁.quantity then
          let tr := transitionOrderState o₁ OrderState.filled none none s₂.openOrderCount
          ({ s₂ with
              orders := insertA s₂.orders oid tr.1,
              openOrderCount := tr.2.1 - 1 },
           [tr.2.2])
        else (s₂, [])

/-- bot/oms.py, `OrderManagementSystem.cancel_order`. -/
def cancelOrder (s : OMSState) (oid reason : String) :
    OMSState × List Transition :=
  match lookupA s.orders oid with
  | none => (s, [])
  | some o =>
      if o.isComplete then (s, [])
      else
        let tr := transitionOrderState o OrderState.cancelled none (some reason)
          s.openOrderCount
        ({ s with
            orders := insertA s.orders oid tr.1,
            openOrderCount := tr.2.1 - 1 },
         [tr.2.2])

/-- One externally triggered OMS operation. -/
inductive OMSOp where
  | submit (oid symbol : String) (side : OrderSide) (otype : OrderType)
      (quantity : ℚ) (price : Option ℚ)
  | updateState (oid : String) (ns : OrderState) (ext err : Option String)
  | fill (oid : String) (fq fp : ℚ) (tid : Option String) (fee : ℚ)
      (fsym : Option String) (fside : Option OrderSide)
  | cancel (oid reason : String)

/-- Apply one OMS operation, collecting the performed transitions. -/
def omsStep (risk : RiskSettings) (trading : TradingSettings)
    (s : OMSState) : OMSOp → OMSState × List Transition
  | OMSOp.submit oid symbol side otype quantity price =>
      let r := submitOrder risk trading s oid symbol side otype quantity price
      (r.1, r.2.1)
  | OMSOp.updateState oid ns ext err => updateOrderState s oid ns ext err
  | OMSOp.fill oid fq fp tid fee fsym fside => addFill s oid fq fp tid fee fsym fside
  | OMSOp.cancel oid reason => cancelOrder s oid reason

/-- Run a list of OMS operations from a state, collecting all performed
transitions in order. -/
def runOMS (risk : RiskSettings) (trading : TradingSettings)
    (s : OMSState) : List OMSOp → OMSState × List Transition
  | [] => (s, [])
  | op :: ops =>
      let r := omsStep risk trading s op
      let r' := runOMS risk trading r.1 ops
      (r'.1, r.2 ++ r'.2)

theorem mem_insertA {α : Type} {l : List (String × α)} {k : String} {v : α}
    {q : String × α} (h : q ∈ insertA l k v) : q = (k, v) ∨ q ∈ l := by
  unfold insertA at h
  split at h
  · rcases List.mem_map.mp h with ⟨p, hp, he⟩
    by_cases hk : p.1 = k
    · left; rw [← he]; simp [hk]
    · right; rw [← he]; simp [hk]; exact hp
  · rcases List.mem_append.mp h with h | h
    · right; exact h
    · left; simpa using h

theorem lookupA_mem {α : Type} {l : List (String × α)} {k : String} {v : α}
    (h : lookupA l k = some v) : (k, v) ∈ l := by
  unfold lookupA at h
  cases hf : l.find? (fun p => p.1 = k) with
  | none => rw [hf] at h; simp at h
  | some p =>
      rw [hf] at h
      simp at h
      have hm := List.mem_of_find?_eq_some hf
      have hk := List.find?_some hf
      simp at hk
      have : (k, v) = p := by
        cases p
        simp_all
      rw [this]
      exact hm

/-- Claim C10: `update_order_state` on an unknown order id, or with a
transition not permitted from the order's current state, is a silent
no-op: the embedded function is total (the source logs and returns, it
raises nothing), the returned state is exactly the input state — every
order field, every position, the open-order counter — and no transition
is performed. -/
theorem C10_update_order_state_silent_noop (s : OMSState) (oid : String)
    (ns : OrderState) (ext err : Option String)
    (h : lookupA s.orders oid = none ∨
      ∀ o, lookupA s.orders oid = some o → ns ∉ validTransitions o.state) :
    updateOrderState s oid ns ext err = (s, []) := by
  rcases h with h | h
  · simp [updateOrderState, h]
  · cases hl : lookupA s.orders oid with
    | none => simp [updateOrderState, hl]
    | some o =>
        simp only [updateOrderState, hl]
        rw [if_neg (h o hl)]

/-- A concrete OMS order in state WORKING, for the C10 witness. -/
def c10order : OMSOrder :=
  { order_id := "o1", symbol := "ADAUSDM", side := OrderSide.buy,
    quantity := 10, state := OrderState.working }

/-- A concrete OMS state holding `c10order`, for the C10 witness. -/
def c10state : OMSState := { orders := [("o1", c10order)] }

theorem C10_update_order_state_silent_noop_witness :
    updateOrderState c10state "missing" OrderState.working none none = (c10state, [])
    ∧ updateOrderState c10state "o1" OrderState.pending none none = (c10state, []) := by
  constructor
  · exact C10_update_order_state_silent_noop _ _ _ _ _ (Or.inl rfl)
  · refine C10_update_order_state_silent_noop _ _ _ _ _ (Or.inr ?_)
    intro o h
    have h2 : some c10order = some o := by
      rw [← h]; rfl
    cases h2
    decide

/-- Default risk settings (bot/config.py defaults). -/
def defaultRisk : RiskSettings := {}

/-- Default trading settings relevant here (bot/config.py defaults). -/
def defaultTrading : TradingSettings := {}

/-- The allowed transition set exactly as claim C5 states it: IDLE →
PENDING → WORKING → (FILLED or CANCELLED), with REJECTED and FAILED
reachable from IDLE and from PENDING and WORKING, and no transition out
of a terminal state.  Stated from the claim's words, as the comparison
point for the code's behaviour. -/
def claimAllowedC5 (a b : OrderState) : Bool :=
  decide ((a = OrderState.idle ∧ b = OrderState.pending) ∨
    (a = OrderState.pending ∧ b = OrderState.working) ∨
    (a = OrderState.working ∧ (b = OrderState.filled ∨ b = OrderState.cancelled)) ∨
    ((a = OrderState.idle ∨ a = OrderState.pending ∨ a = OrderState.working) ∧
      (b = OrderState.rejected ∨ b = OrderState.failed)))

/-- The transition set the OMS operations actually perform (amended claim
C5): the code's `valid_transitions` table, plus PENDING → CANCELLED
(`cancel_order` checks only `is_complete`, not the table), plus S →
FILLED from any stored state S (`add_fill` transitions to FILLED with no
state guard whenever the cumulative fill reaches the order quantity;
stored orders are never IDLE). -/
def amendedAllowedC5 (a b : OrderState) : Bool :=
  decide (b ∈ validTransitions a ∨
    (a = OrderState.pending ∧ b = OrderState.cancelled) ∨
    (b = OrderState.filled ∧ a ≠ OrderState.idle))

/-- No stored OMS order is in state IDLE. -/
def NoIdle (s : OMSState) : Prop :=
  ∀ p ∈ s.orders, p.2.state ≠ OrderState.idle

theorem idle_not_mem_validTransitions (a : OrderState) :
    OrderState.idle ∉ validTransitions a := by
  cases a <;> simp [validTransitions]

theorem transitionOrderState_state (o : OMSOrder) (ns : OrderState)
    (ext err : Option String) (c : Int) :
    (transitionOrderState o ns ext err c).1.state = ns := rfl

theorem omsStep_noIdle (risk : RiskSettings) (trading : TradingSettings)
    (s : OMSState) (op : OMSOp) (h : NoIdle s) :
    NoIdle (omsStep risk trading s op).1 := by
  cases op with
  | submit oid symbol side otype quantity price =>
      simp only [omsStep, submitOrder]
      split
      · intro p hp
        rcases mem_insertA hp with he | hm
        · rw [he]; simp [transitionOrderState]
        · exact h p hm
      · intro p hp
        rcases mem_insertA hp with he | hm
        · rw [he]; simp
        · exact h p hm
  | updateState oid ns ext err =>
      simp only [omsStep, updateOrderState]
      cases hl : lookupA s.orders oid with
      | none => simpa using h
      | some o =>
          simp only
          split
          · intro p hp
            rcases mem_insertA hp with he | hm
            · rw [he]
              simp only [transitionOrderState_state]
              rename_i hns
              intro hid
              rw [hid] at hns
              exact idle_not_mem_validTransitions o.state hns
            · exact h p hm
          · exact h
  | fill oid fq fp tid fee fsym fside =>
      simp only [omsStep, addFill]
      cases hl : lookupA s.orders oid with
      | none =>
          cases fsym <;> cases fside <;> simp [applyPositionUpdate] <;> exact h
      | some o =>
          have ho : o.state ≠ OrderState.idle := h (oid, o) (lookupA_mem hl)
          simp only
          split
          · exact h
          · split
            · intro p hp
              rcases mem_insertA hp with he | hm
              · rw [he]; simp [transitionOrderState]
              · simp only [applyPositionUpdate] at hm
                rcases mem_insertA hm with he | hm'
                · rw [he]; exact ho
                · exact h p hm'
            · intro p hp
              simp only [applyPositionUpdate] at hp
              rcases mem_insertA hp with he | hm
              · rw [he]; exact ho
              · exact h p hm
  | cancel oid reason =>
      simp only [omsStep, cancelOrder]
      cases hl : lookupA s.orders oid with
      | none => simpa using h
      | some o =>
          simp only
          split
          · exact h
          · intro p hp
            rcases mem_insertA hp with he | hm
            · rw [he]; simp [transitionOrderState]
            · exact h p hm

theorem omsStep_transitions (risk : RiskSettings) (trading : TradingSettings)
    (s : OMSState) (op : OMSOp) (h : NoIdle s) :
    ∀ t ∈ (omsStep risk trading s op).2, amendedAllowedC5 t.1 t.2 = true := by
  cases op with
  | submit oid symbol side otype quantity price =>
      simp only [omsStep, submitOrder]
      split <;> intro t ht <;> simp at ht <;> subst ht
      · exact (by decide : amendedAllowedC5 OrderState.idle OrderState.pending = true)
      · exact (by decide : amendedAllowedC5 OrderState.idle OrderState.rejected = true)
  | updateState oid ns ext err =>
      simp only [omsStep, updateOrderState]
      cases hl : lookupA s.orders oid with
      | none => simp
      | some o =>
          simp only
          split
          · intro t ht
            simp at ht
            subst ht
            rename_i hns
            show amendedAllowedC5 o.state ns = true
            simp only [amendedAllowedC5, decide_eq_true_eq]
            exact Or.inl hns
          · simp
  | fill oid fq fp tid fee fsym fside =>
      simp only [omsStep, addFill]
      cases hl : lookupA s.orders oid with
      | none => cases fsym <;> cases fside <;> simp
      | some o =>
          have ho : o.state ≠ OrderState.idle := h (oid, o) (lookupA_mem hl)
          simp only
          split
          · simp
          · split
            · intro t ht
              simp at ht
              subst ht
              show amendedAllowedC5 o.state OrderState.filled = true
              simp only [amendedAllowedC5, decide_eq_true_eq]
              exact Or.inr (Or.inr ⟨by trivial, ho⟩)
            · simp
  | cancel oid reason =>
      simp only [omsStep, cancelOrder]
      cases hl : lookupA s.orders oid with
      | none => simp
      | some o =>
          simp only
          split
          · simp
          · intro t ht
            simp at ht
            subst ht
            rename_i hc
            have ho : o.state ≠ OrderState.idle := h (oid, o) (lookupA_mem hl)
            have hc' : ¬(o.state = OrderState.filled ∨ o.state = OrderState.cancelled ∨
                o.state = OrderState.rejected ∨ o.state = OrderState.failed) := by
              intro hp
              apply hc
              simp only [OMSOrder.isComplete, decide_eq_true_eq]
              exact hp
            show amendedAllowedC5 o.state OrderState.cancelled = true
            simp only [amendedAllowedC5, decide_eq_true_eq]
            cases ho2 : o.state with
            | idle => exact absurd ho2 ho
            | pending => exact Or.inr (Or.inl ⟨by trivial, by trivial⟩)
            | working => exact Or.inl (by decide)
            | filled => exact absurd (Or.inl ho2) hc'
            | cancelled => exact absurd (Or.inr (Or.inl ho2)) hc'
            | rejected => exact absurd (Or.inr (Or.inr (Or.inl ho2))) hc'
            | failed => exact absurd (Or.inr (Or.inr (Or.inr ho2))) hc'

theorem runOMS_transitions (risk : RiskSettings) (trading : TradingSettings)
    (ops : List OMSOp) :
    ∀ s, NoIdle s →
      ∀ t ∈ (runOMS risk trading s ops).2, amendedAllowedC5 t.1 t.2 = true := by
  induction ops with
  | nil => intro s _ t ht; simp [runOMS] at ht
  | cons op ops ih =>
      intro s hs t ht
      simp only [runOMS] at ht
      rcases List.mem_append.mp ht with ht | ht
      · exact omsStep_transitions risk trading s op hs t ht
      · exact ih _ (omsStep_noIdle risk trading s op hs) t ht

/-- Claim C5, counterexample: from the empty OMS, submitting an order
(which passes risk checks and becomes PENDING) and then cancelling it
performs the transition PENDING → CANCELLED, which is outside the allowed
set stated by the claim. -/
theorem C5_counterexample_pending_cancelled :
    (runOMS defaultRisk defaultTrading {}
        [OMSOp.submit "o1" "ADAUSDM" OrderSide.buy OrderType.limit 100 (some 1),
         OMSOp.cancel "o1" "replaced"]).2
      = [(OrderState.idle, OrderState.pending),
         (OrderState.pending, OrderState.cancelled)]
    ∧ claimAllowedC5 OrderState.pending OrderState.cancelled = false := by
  constructor
  · rfl
  · decide

/-- Claim C5, amended: every transition performed by any OMS operation
from the initial (empty) OMS belongs to the code's `valid_transitions`
table extended with PENDING → CANCELLED (performed by `cancel_order`) and
S → FILLED from any stored state S (performed by `add_fill` whenever the
cumulative fill reaches the order quantity — including out of the
terminal states REJECTED, CANCELLED, FAILED, and FILLED → FILLED);
`update_order_state` alone never leaves the table, and apart from
`add_fill`'s S → FILLED no transition leaves a terminal state. -/
theorem C5_amended_transition_closure (risk : RiskSettings)
    (trading : TradingSettings) (ops : List OMSOp) (t : Transition)
    (ht : t ∈ (runOMS risk trading {} ops).2) :
    amendedAllowedC5 t.1 t.2 = true := by
  refine runOMS_transitions risk trading ops {} ?_ t ht
  intro p hp
  simp at hp

theorem C5_amended_transition_closure_witness :
    amendedAllowedC5 OrderState.idle OrderState.pending = true := by
  refine C5_amended_transition_closure defaultRisk defaultTrading
    [OMSOp.submit "o1" "ADAUSDM" OrderSide.buy OrderType.limit 100 (some 1)]
    (OrderState.idle, OrderState.pending) ?_
  exact List.Mem.head _

/-- A concrete OMS state for the C4 counterexample: one WORKING order of
quantity 10 with nothing filled. -/
def c4state : OMSState :=
  { orders := [("o1",
      { order_id := "o1", symbol := "ADAUSDM", side := OrderSide.buy,
        quantity := 10, state := OrderState.working })] }

/-- Claim C4, counterexample: OMS `add_fill` is not idempotent on the
fill id — applying the same fill (trade id T1, quantity 4 at price 1)
twice leaves `filled_quantity` 8, not 4: the duplicate changed the
state. -/
theorem C4_counterexample_addFill_not_idempotent :
    (lookupA (addFill c4state "o1" 4 1 (some "T1") 0 none none).1.orders "o1").map
        OMSOrder.filled_quantity = some 4
    ∧ (lookupA (addFill (addFill c4state "o1" 4 1 (some "T1") 0 none none).1
          "o1" 4 1 (some "T1") 0 none none).1.orders "o1").map
        OMSOrder.filled_quantity = some 8 := by
  constructor <;>
    norm_num [addFill, c4state, lookupA, insertA, applyPositionUpdate,
      omsUpdatePosition, transitionOrderState]

/-- Fill processing status (bot/account_manager.py, `FillStatus`). -/
inductive FillStatus where
  | received
  | reconciled
  | processed
  | error
  deriving DecidableEq, Repr

/-- Account balance (bot/account_manager.py, `AccountBalance`);
`updated_at` omitted. -/
structure Balance where
  available : ℚ
  locked : ℚ
  total : ℚ
  deriving DecidableEq, Repr

/-- An outbox event as emitted by the reconciler
(bot/account_manager.py, `_publish_fill_event`): event type, aggregate
id, and the values rendered into the JSON payload. -/
structure FillEvent where
  event_type : String
  aggregate_id : String
  fill : AccountFill
  position_update : Option PositionUpdate
  deriving DecidableEq, Repr

/-- The state touched by `FillReconciler.process_fill`
(bot/account_manager.py): the in-memory `processed_fills` set, the
`fills` table (keyed by `fill_id`, via INSERT OR REPLACE), the
`positions` table, the BalanceTracker's `current_balances`, and the
outbox events published. -/
structure ReconState where
  processed_fills : List String := []
  fills : List (String × (AccountFill × FillStatus)) := []
  positions : List (String × PositionRow) := []
  balances : List (String × Balance) := []
  outbox : List FillEvent := []
  deriving DecidableEq, Repr

/-- Symbol → (base asset, quote asset) parsing
(bot/account_manager.py, `_update_balances_from_fill`). -/
def parseAssets (symbol : String) : String × String :=
  if symbol.endsWith "USDM" then (symbol.dropRight 4, "USDM")
  else if symbol.endsWith "USDT" then (symbol.dropRight 4, "USDT")
  else (symbol.take 3, symbol.drop 3)

/-- bot/account_manager.py, `FillReconciler._update_balances_from_fill`:
both balances are read before either is written; missing balance data
makes the update a no-op. -/
def updateBalancesFromFill (balances : List (String × Balance))
    (fill : AccountFill) : List (String × Balance) :=
  let pq := parseAssets fill.symbol
  match lookupA balances pq.1, lookupA balances pq.2 with
  | some base_balance, some quote_balance =>
      let base_change₀ : ℚ := if fill.side = "buy" then fill.quantity else -fill.quantity
      let quote_change₀ : ℚ :=
        if fill.side = "buy" then -(fill.quantity * fill.price)
        else fill.quantity * fill.price
      let base_change :=
        if fill.commission > 0 ∧ fill.commission_asset = pq.1 then
          base_change₀ - fill.commission
        else base_change₀
      let quote_change :=
        if fill.commission > 0 ∧ fill.commission_asset ≠ pq.1 ∧
            fill.commission_asset = pq.2 then
          quote_change₀ - fill.commission
        else quote_change₀
      let balances₁ := insertA balances pq.1
        ⟨base_balance.available + base_change, base_balance.locked,
          base_balance.available + base_change + base_balance.locked⟩
      insertA balances₁ pq.2
        ⟨quote_balance.available + quote_change, quote_balance.locked,
          quote_balance.available + quote_change + quote_balance.locked⟩
  | _, _ => balances

/-- bot/account_manager.py, `FillReconciler.process_fill`: returns
`false` and changes nothing when the fill id is already in the processed
set; otherwise persists the fill, updates the position and the balances,
marks the fill processed, records the id, and publishes the outbox
event. -/
def processFill (s : ReconState) (fill : AccountFill) : Bool × ReconState :=
  if fill.fill_id ∈ s.processed_fills then (false, s)
  else
    let s₁ := { s with
        fills := insertA s.fills fill.fill_id (fill, FillStatus.received) }
    let pos := (lookupA s₁.positions fill.symbol).getD {}
    let upd := reconUpdatePosition pos fill
    let s₂ := { s₁ with positions := insertA s₁.positions fill.symbol upd.1 }
    let s₃ := { s₂ with balances := updateBalancesFromFill s₂.balances fill }
    let s₄ := { s₃ with processed_fills := s₃.processed_fills ++ [fill.fill_id] }
    let s₅ := { s₄ with
        fills := insertA s₄.fills fill.fill_id (fill, FillStatus.processed) }
    let s₆ := { s₅ with
        outbox := s₅.outbox ++ [⟨"fill_processed", fill.fill_id, fill, some upd.2⟩] }
    (true, s₆)

/-- Process a sequence of fills through the reconciler. -/
def runFills (s : ReconState) : List AccountFill → ReconState
  | [] => s
  | f :: l => runFills (processFill s f).2 l

/-- Deduplicate a fill sequence on `fill_id`, keeping first
occurrences. -/
def dedupFills : List AccountFill → List AccountFill
  | [] => []
  | f :: l => f :: dedupFills (l.filter (fun g => g.fill_id ≠ f.fill_id))
  termination_by l => l.length
  decreasing_by
    simp only [List.length_cons]
    exact Nat.lt_succ_of_le (List.length_filter_le _ _)

theorem processFill_skip {s : ReconState} {f : AccountFill}
    (h : f.fill_id ∈ s.processed_fills) : processFill s f = (false, s) := by
  simp [processFill, h]

theorem mem_processed_processFill {s : ReconState} {f : AccountFill}
    {x : String} :
    x ∈ (processFill s f).2.processed_fills ↔
      x ∈ s.processed_fills ∨ x = f.fill_id := by
  unfold processFill
  split
  · rename_i h
    constructor
    · exact fun hx => Or.inl hx
    · rintro (hx | hx)
      · exact hx
      · rw [hx]; exact h
  · simp

theorem runFills_filter_processed (l : List AccountFill) :
    ∀ (s : ReconState) (fid : String), fid ∈ s.processed_fills →
      runFills s l = runFills s (l.filter (fun g => g.fill_id ≠ fid)) := by
  induction l with
  | nil => intro s fid _; rfl
  | cons f l ih =>
      intro s fid h
      by_cases hf : f.fill_id = fid
      · have hskip : processFill s f = (false, s) := by
          refine processFill_skip ?_
          rw [hf]; exact h
        simp only [runFills, List.filter_cons, hskip]
        rw [if_neg (by simp [hf])]
        exact ih s fid h
      · simp only [runFills, List.filter_cons]
        rw [if_pos (by simp [hf])]
        simp only [runFills]
        refine ih (processFill s f).2 fid ?_
        exact mem_processed_processFill.mpr (Or.inl h)

theorem runFills_dedup (l : List AccountFill) :
    ∀ s : ReconState, runFills s (dedupFills l) = runFills s l := by
  induction l using dedupFills.induct with
  | case1 => intro s; rw [dedupFills]
  | case2 f l ih =>
      intro s
      rw [dedupFills]
      simp only [runFills]
      rw [ih (processFill s f).2]
      refine (runFills_filter_processed l (processFill s f).2 f.fill_id ?_).symm
      exact mem_processed_processFill.mpr (Or.inr rfl)

/-- Claim C4, amended: FillReconciler.process_fill returns false and
performs no state change for a fill whose id is already in the processed
set, and processing any fill sequence (duplicates on fill_id included)
yields exactly the state — positions, balances, fills table, outbox,
processed set — of the deduplicated sequence.  The OMS add_fill part of
the claim is false: it deduplicates nothing (see the counterexample). -/
theorem C4_amended_fill_idempotency (s : ReconState) (f : AccountFill)
    (l : List AccountFill) (h : f.fill_id ∈ s.processed_fills) :
    processFill s f = (false, s)
    ∧ runFills s (dedupFills l) = runFills s l :=
  ⟨processFill_skip h, runFills_dedup l s⟩

theorem C4_amended_fill_idempotency_witness :
    processFill { processed_fills := ["F1"] }
        { fill_id := "F1", order_id := "O1", symbol := "ADAUSDM", side := "buy",
          price := 1, quantity := 2 }
      = (false, { processed_fills := ["F1"] }) :=
  (C4_amended_fill_idempotency { processed_fills := ["F1"] }
    { fill_id := "F1", order_id := "O1", symbol := "ADAUSDM", side := "buy",
      price := 1, quantity := 2 } [] (by decide)).1

/-- Quote lifecycle status (bot/quote_to_order_pipeline.py,
`QuoteStatus`). -/
inductive QuoteStatus where
  | generated
  | persisted
  | ordersCreated
  | ordersSubmitted
  | expired
  | cancelled
  deriving DecidableEq, Repr

/-- The quote statuses `cancel_active_quotes_for_symbol` treats as
active (bot/quote_to_order_pipeline.py). -/
def ActiveStatuses : List QuoteStatus :=
  [QuoteStatus.persisted, QuoteStatus.ordersCreated, QuoteStatus.ordersSubmitted]

/-- bot/quote_to_order_pipeline.py, `PersistentQuote` — the fields the
pipeline logic reads (source market data, spread metadata and wall-clock
fields omitted). -/
structure PQuote where
  quote_id : String
  symbol_dst : String
  bid_price : Option ℚ := none
  bid_qty : Option ℚ := none
  ask_price : Option ℚ := none
  ask_qty : Option ℚ := none
  sides_enabled : List String := ["bid", "ask"]
  status : QuoteStatus := QuoteStatus.generated
  bid_order_id : Option String := none
  ask_order_id : Option String := none
  deriving DecidableEq, Repr

/-- bot/quote_to_order_pipeline.py, `PersistentQuote.has_bid`. -/
def hasBid (q : PQuote) : Bool :=
  q.bid_price.isSome && match q.bid_qty with
    | some v => decide (v > 0)
    | none => false

/-- bot/quote_to_order_pipeline.py, `PersistentQuote.has_ask`. -/
def hasAsk (q : PQuote) : Bool :=
  q.ask_price.isSome && match q.ask_qty with
    | some v => decide (v > 0)
    | none => false

/-- Python truthiness of an optional numeric field (`x if x else None`):
0 collapses to None, as in `PersistentQuote.from_quote`. -/
def truthy (x : Option ℚ) : Option ℚ :=
  match x with
  | some v => if v = 0 then none else some v
  | none => none

/-- The environment of one `process_quote` call: the engine quote's
fields, the fresh quote id (uuid4), the OMS ids the two `submit_order`
calls would generate (timestamp-based in the source), and the external
ids the venue would return. -/
structure QuoteInput where
  quote_id : String
  symbol_dst : String
  bid_price : Option ℚ := none
  bid_qty : Option ℚ := none
  ask_price : Option ℚ := none
  ask_qty : Option ℚ := none
  bid_oid : String := "b"
  ask_oid : String := "a"
  ext_bid : String := "xb"
  ext_ask : String := "xa"

/-- bot/quote_to_order_pipeline.py, `PersistentQuote.from_quote`. -/
def fromQuote (trading : TradingSettings) (qi : QuoteInput) : PQuote :=
  { quote_id := qi.quote_id, symbol_dst := qi.symbol_dst,
    bid_price := truthy qi.bid_price, bid_qty := truthy qi.bid_qty,
    ask_price := truthy qi.ask_price, ask_qty := truthy qi.ask_qty,
    sides_enabled := trading.side_enable }

/-- Pipeline state (bot/quote_to_order_pipeline.py,
`QuoteToOrderPipeline`): the `running` flag, the `active_quotes` dict
(insertion-ordered association list keyed by quote id), and the OMS it
drives. -/
structure PipelineState where
  running : Bool := false
  active_quotes : List (String × PQuote) := []
  oms : OMSState := {}
  deriving Repr

/-- bot/quote_to_order_pipeline.py, `_cancel_quote`: cancel the quote's
bid and ask OMS orders and mark the quote CANCELLED (the DB status
update is covered by the persistence model). -/
def cancelQuote (oms : OMSState) (q : PQuote) : OMSState × PQuote :=
  let oms₁ := match q.bid_order_id with
    | some oid => (cancelOrder oms oid "Quote cancelled").1
    | none => oms
  let oms₂ := match q.ask_order_id with
    | some oid => (cancelOrder oms₁ oid "Quote cancelled").1
    | none => oms₁
  (oms₂, { q with status := QuoteStatus.cancelled })

/-- bot/quote_to_order_pipeline.py, `cancel_active_quotes_for_symbol`:
cancel every active quote for the symbol and pop it from
`active_quotes` (dict keys are unique, so popping the collected ids
equals filtering them out); returns the cancelled count. -/
def cancelActiveQuotesForSymbol (s : PipelineState) (symbol_dst : String) :
    PipelineState × ℕ :=
  let isTarget : String × PQuote → Bool := fun p =>
    p.2.symbol_dst = symbol_dst ∧ p.2.status ∈ ActiveStatuses
  let toCancel := s.active_quotes.filter isTarget
  let oms' := toCancel.foldl (fun o p => (cancelQuote o p.2).1) s.oms
  ({ s with
      oms := oms',
      active_quotes := s.active_quotes.filter (fun p => ¬ isTarget p) },
   toCancel.length)

/-- Number of orders the budget check counts
(bot/quote_to_order_pipeline.py, `process_quote`, step `orders_to_create`). -/
def ordersToCreate (trading : TradingSettings) : ℕ :=
  (trading.side_enable.filter (fun x => x = "bid" ∨ x = "ask")).length

/-- The budget-gate error text (bot/quote_to_order_pipeline.py,
`process_quote`); the interpolated order counts are elided. -/
def budgetExceededMsg : String :=
  "Cannot create new orders: would exceed limit. Order replacement may have failed."

/-- Outcome summary of one `process_quote` call: the raised error (if
any), whether the quote row was persisted, and how many OMS orders were
created during the call. -/
structure ProcessOutcome where
  err : Option String := none
  persisted : Bool := false
  orders_created : ℕ := 0
  deriving DecidableEq, Repr

/-- Result of `_generate_orders` together with `_submit_orders`. -/
structure GenResult where
  oms : OMSState
  quote : PQuote
  created : ℕ
  err : Option String
  deriving Repr

/-- bot/quote_to_order_pipeline.py, `_submit_orders`: for every created
order, wait on the rate limiter and submit to the venue; on success move
the order to WORKING with the returned external id, on failure move it
to FAILED (the venue error text is environment-dependent and modelled by
a constant); the quote advances to ORDERS_SUBMITTED when at least one
order was submitted.  `orders` carries `(order id, venue accepted?,
external id)` per order, `created` the number of orders created. -/
def submitPhase (oms : OMSState) (q : PQuote)
    (orders : List (String × Bool × String)) (created : ℕ) : GenResult :=
  let step := orders.foldl (fun acc o =>
      if o.2.1 then
        ((updateOrderState acc.1 o.1 OrderState.working (some o.2.2) none).1,
         acc.2 + 1)
      else
        ((updateOrderState acc.1 o.1 OrderState.failed none
            (some "submit failed")).1, acc.2))
    (oms, (0 : ℕ))
  let q' := if step.2 > 0 then { q with status := QuoteStatus.ordersSubmitted } else q
  { oms := step.1, quote := q', created := created, err := none }

/-- bot/quote_to_order_pipeline.py, `_generate_orders` (with
`_create_order` and the subsequent `_submit_orders`): create a bid order
when the quote has a bid and "bid" is enabled, then an ask order
likewise; an OMS risk rejection cancels the already created sibling
orders and surfaces the error; when any order was created the quote
advances to ORDERS_CREATED and the orders are submitted. -/
def generateAndSubmit (risk : RiskSettings) (trading : TradingSettings)
    (oms : OMSState) (q : PQuote) (qi : QuoteInput)
    (venueOkBid venueOkAsk : Bool) : GenResult :=
  if hasBid q ∧ "bid" ∈ q.sides_enabled then
    let rb := submitOrder risk trading oms qi.bid_oid q.symbol_dst OrderSide.buy
      OrderType.limit (q.bid_qty.getD 0) q.bid_price
    match rb.2.2 with
    | Except.error m => { oms := rb.1, quote := q, created := 0, err := some m }
    | Except.ok _ =>
        let q₁ := { q with bid_order_id := some qi.bid_oid }
        if hasAsk q ∧ "ask" ∈ q.sides_enabled then
          let ra := submitOrder risk trading rb.1 qi.ask_oid q.symbol_dst
            OrderSide.sell OrderType.limit (q.ask_qty.getD 0) q.ask_price
          match ra.2.2 with
          | Except.error m =>
              { oms := (cancelOrder ra.1 qi.bid_oid "Quote processing failed").1,
                quote := q₁, created := 1, err := some m }
          | Except.ok _ =>
              let q₂ := { q₁ with
                  ask_order_id := some qi.ask_oid,
                  status := QuoteStatus.ordersCreated }
              submitPhase ra.1 q₂
                [(qi.bid_oid, venueOkBid, qi.ext_bid),
                 (qi.ask_oid, venueOkAsk, qi.ext_ask)] 2
        else
          let q₂ := { q₁ with status := QuoteStatus.ordersCreated }
          submitPhase rb.1 q₂ [(qi.bid_oid, venueOkBid, qi.ext_bid)] 1
  else if hasAsk q ∧ "ask" ∈ q.sides_enabled then
    let ra := submitOrder risk trading oms qi.ask_oid q.symbol_dst OrderSide.sell
      OrderType.limit (q.ask_qty.getD 0) q.ask_price
    match ra.2.2 with
    | Except.error m => { oms := ra.1, quote := q, created := 0, err := some m }
    | Except.ok _ =>
        let q₂ := { q with
            ask_order_id := some qi.ask_oid,
            status := QuoteStatus.ordersCreated }
        submitPhase ra.1 q₂ [(qi.ask_oid, venueOkAsk, qi.ext_ask)] 1
  else { oms := oms, quote := q, created := 0, err := none }

/-- bot/quote_to_order_pipeline.py, `process_quote`: refuse when not
running; cancel the previous ladder for the symbol; read the open-order
count and apply the budget gate (abort before persisting anything);
persist the quote as PERSISTED; generate and submit orders (an error
here leaves the quote out of `active_quotes` and marks it CANCELLED);
finally track the quote in `active_quotes`. -/
def processQuote (risk : RiskSettings) (trading : TradingSettings)
    (s : PipelineState) (qi : QuoteInput) (venueOkBid venueOkAsk : Bool) :
    PipelineState × ProcessOutcome :=
  if s.running = false then
    (s, { err := some "Pipeline is not running" })
  else
    let pq := fromQuote trading qi
    let c := cancelActiveQuotesForSymbol s qi.symbol_dst
    let s₀ := c.1
    let current_order_count := s₀.oms.openOrderCount
    let orders_to_create := ordersToCreate trading
    if current_order_count + (orders_to_create : Int) > risk.max_open_orders then
      (s₀, { err := some budgetExceededMsg, persisted := false, orders_created := 0 })
    else
      let pq₁ := { pq with status := QuoteStatus.persisted }
      let g := generateAndSubmit risk trading s₀.oms pq₁ qi venueOkBid venueOkAsk
      match g.err with
      | some m =>
          ({ s₀ with oms := g.oms },
           { err := some m, persisted := true, orders_created := g.created })
      | none =>
          ({ s₀ with
              oms := g.oms,
              active_quotes := insertA s₀.active_quotes pq₁.quote_id g.quote },
           { err := none, persisted := true, orders_created := g.created })

/-- bot/quote_to_order_pipeline.py, `_on_order_update`: when an order of
a tracked quote completes and all the quote's orders are complete, drop
the quote from `active_quotes`. -/
def onOrderUpdate (s : PipelineState) (oid : String) : PipelineState :=
  match s.active_quotes.find?
      (fun p => p.2.bid_order_id = some oid ∨ p.2.ask_order_id = some oid) with
  | none => s
  | some p =>
      match lookupA s.oms.orders oid with
      | none => s
      | some o =>
          if o.isComplete then
            let bidComplete : Bool := match p.2.bid_order_id with
              | none => true
              | some b => match lookupA s.oms.orders b with
                | none => true
                | some bo => bo.isComplete
            let askComplete : Bool := match p.2.ask_order_id with
              | none => true
              | some a => match lookupA s.oms.orders a with
                | none => true
                | some ao => ao.isComplete
            if bidComplete ∧ askComplete then
              { s with active_quotes := s.active_quotes.filter (fun r => r.1 ≠ p.1) }
            else s
          else s

/-- bot/quote_to_order_pipeline.py, `cleanup_expired_quotes`:
`expiredIds` is the set of tracked quote ids whose `is_expired`
(wall-clock comparison against `expires_at`) holds at this instant;
each such quote is cancelled and dropped. -/
def cleanupExpiredOp (s : PipelineState) (expiredIds : List String) :
    PipelineState :=
  let expired := s.active_quotes.filter (fun p => p.1 ∈ expiredIds)
  let oms' := expired.foldl (fun o p => (cancelQuote o p.2).1) s.oms
  { s with
      oms := oms',
      active_quotes := s.active_quotes.filter (fun p => p.1 ∉ expiredIds) }

/-- bot/quote_to_order_pipeline.py, `stop`: cancel every active quote
and clear the map. -/
def pipeStop (s : PipelineState) : PipelineState :=
  let oms' := s.active_quotes.foldl (fun o p => (cancelQuote o p.2).1) s.oms
  { s with running := false, active_quotes := [], oms := oms' }

/-- One externally triggered pipeline operation. -/
inductive PipeOp where
  | start
  | processQ (qi : QuoteInput) (venueOkBid venueOkAsk : Bool)
  | cancelForSymbol (symbol : String)
  | orderUpdate (oid : String)
  | cleanupExpired (expiredIds : List String)
  | stop

/-- Apply one pipeline operation. -/
def pipeStep (risk : RiskSettings) (trading : TradingSettings)
    (s : PipelineState) : PipeOp → PipelineState
  | PipeOp.start => { s with running := true }
  | PipeOp.processQ qi vb va => (processQuote risk trading s qi vb va).1
  | PipeOp.cancelForSymbol sym => (cancelActiveQuotesForSymbol s sym).1
  | PipeOp.orderUpdate oid => onOrderUpdate s oid
  | PipeOp.cleanupExpired ids => cleanupExpiredOp s ids
  | PipeOp.stop => pipeStop s

/-- Run pipeline operations from a state. -/
def pipeRun (risk : RiskSettings) (trading : TradingSettings)
    (s : PipelineState) : List PipeOp → PipelineState
  | [] => s
  | op :: ops => pipeRun risk trading (pipeStep risk trading s op) ops

/-- Number of active quotes tracked for a destination symbol. -/
def countFor (l : List (String × PQuote)) (sym : String) : ℕ :=
  (l.filter (fun p => p.2.symbol_dst = sym)).length

/-- The pipeline tracking invariant: quote ids are unique, every tracked
quote has an active status, and at most one quote is tracked per
destination symbol. -/
def PipeInv (s : PipelineState) : Prop :=
  ((s.active_quotes.map Prod.fst).Nodup) ∧
  (∀ p ∈ s.active_quotes, p.2.status ∈ ActiveStatuses) ∧
  (∀ sym, countFor s.active_quotes sym ≤ 1)

theorem pipeInv_of_sublist {l l' : List (String × PQuote)} (hsub : l'.Sublist l)
    (hnd : (l.map Prod.fst).Nodup)
    (hst : ∀ p ∈ l, p.2.status ∈ ActiveStatuses)
    (hcnt : ∀ sym, countFor l sym ≤ 1) :
    ((l'.map Prod.fst).Nodup) ∧ (∀ p ∈ l', p.2.status ∈ ActiveStatuses) ∧
      (∀ sym, countFor l' sym ≤ 1) := by
  refine ⟨hnd.sublist (hsub.map Prod.fst), fun p hp => hst p (hsub.subset hp),
    fun sym => ?_⟩
  exact le_trans (hsub.filter _).length_le (hcnt sym)

theorem length_filter_map_update_le {l : List (String × PQuote)} {k : String}
    {v : PQuote} {pred : String × PQuote → Bool} (hv : pred (k, v) = false) :
    ((l.map (fun p => if p.1 = k then (k, v) else p)).filter pred).length ≤
      (l.filter pred).length := by
  induction l with
  | nil => simp
  | cons q l ih =>
      simp only [List.map_cons, List.filter_cons]
      by_cases hq : q.1 = k
      · rw [if_pos hq, hv]
        cases hpq : pred q <;> simp [hpq] <;> omega
      · rw [if_neg hq]
        cases hpq : pred q <;> simp [hpq] <;> omega

theorem length_filter_map_update_le_one {l : List (String × PQuote)}
    {k : String} {v : PQuote} {pred : String × PQuote → Bool}
    (hnd : (l.map Prod.fst).Nodup) (h0 : ∀ q ∈ l, pred q = false) :
    ((l.map (fun p => if p.1 = k then (k, v) else p)).filter pred).length ≤ 1 := by
  induction l with
  | nil => simp
  | cons q l ih =>
      simp only [List.map_cons, List.nodup_cons] at hnd
      simp only [List.map_cons, List.filter_cons]
      by_cases hq : q.1 = k
      · rw [if_pos hq]
        have hrest : ((l.map (fun p => if p.1 = k then (k, v) else p)).filter pred) = [] := by
          have hmapid : l.map (fun p => if p.1 = k then (k, v) else p) = l.map id := by
            apply List.map_congr_left
            intro p hp
            have : p.1 ≠ k := by
              intro hpk
              apply hnd.1
              rw [hq, ← hpk]
              exact List.mem_map.mpr ⟨p, hp, rfl⟩
            simp [this]
          rw [hmapid, List.map_id]
          exact List.filter_eq_nil_iff.mpr
            (by intro a ha; simp [h0 a (List.mem_cons_of_mem q ha)])
        cases hkv : pred (k, v) <;> simp [hkv, hrest]
      · rw [if_neg hq, h0 q (List.mem_cons_self q l)]
        exact ih hnd.2 (fun p hp => h0 p (List.mem_cons_of_mem q hp))

theorem length_filter_insertA_le_one {l : List (String × PQuote)} {k : String}
    {v : PQuote} {pred : String × PQuote → Bool}
    (hnd : (l.map Prod.fst).Nodup) (h0 : ∀ q ∈ l, pred q = false) :
    ((insertA l k v).filter pred).length ≤ 1 := by
  unfold insertA
  split
  · exact length_filter_map_update_le_one hnd h0
  · rw [List.filter_append]
    have h1 : l.filter pred = [] :=
      List.filter_eq_nil_iff.mpr (by intro a ha; simp [h0 a ha])
    rw [h1]
    cases hkv : pred (k, v) <;> simp [hkv]

theorem length_filter_insertA_le_of_neg {l : List (String × PQuote)}
    {k : String} {v : PQuote} {pred : String × PQuote → Bool}
    (hv : pred (k, v) = false) :
    ((insertA l k v).filter pred).length ≤ (l.filter pred).length := by
  unfold insertA
  split
  · exact length_filter_map_update_le hv
  · simp [List.filter_append, hv]

theorem keys_nodup_insertA {α : Type} {l : List (String × α)} {k : String}
    {v : α} (hnd : (l.map Prod.fst).Nodup) :
    ((insertA l k v).map Prod.fst).Nodup := by
  unfold insertA
  split
  · have : (l.map (fun p => if p.1 = k then (k, v) else p)).map Prod.fst
        = l.map Prod.fst := by
      rw [List.map_map]
      apply List.map_congr_left
      intro p _
      by_cases hq : p.1 = k <;> simp [hq]
    rw [this]
    exact hnd
  · rename_i hfind
    rw [List.map_append]
    have hk : k ∉ l.map Prod.fst := by
      intro hmem
      rcases List.mem_map.mp hmem with ⟨p, hp, he⟩
      apply hfind
      rw [List.find?_isSome]
      exact ⟨p, hp, by simp [he]⟩
    refine List.Nodup.append hnd (List.nodup_singleton k) ?_
    intro a ha hb
    simp at hb
    rw [hb] at ha
    exact hk ha

theorem generateAndSubmit_symbol (risk : RiskSettings) (trading : TradingSettings)
    (oms : OMSState) (q : PQuote) (qi : QuoteInput) (vb va : Bool) :
    (generateAndSubmit risk trading oms q qi vb va).quote.symbol_dst
      = q.symbol_dst := by
  simp only [generateAndSubmit, submitPhase]
  split
  · split
    · rfl
    · split
      · split
        · rfl
        · split <;> rfl
      · split <;> rfl
  · split
    · split
      · rfl
      · split <;> rfl
    · rfl

theorem generateAndSubmit_status (risk : RiskSettings) (trading : TradingSettings)
    (oms : OMSState) (q : PQuote) (qi : QuoteInput) (vb va : Bool) :
    (generateAndSubmit risk trading oms q qi vb va).quote.status = q.status ∨
    (generateAndSubmit risk trading oms q qi vb va).quote.status
      = QuoteStatus.ordersCreated ∨
    (generateAndSubmit risk trading oms q qi vb va).quote.status
      = QuoteStatus.ordersSubmitted := by
  simp only [generateAndSubmit, submitPhase]
  split
  · split
    · left; rfl
    · split
      · split
        · left; rfl
        · split
          · right; right; rfl
          · right; left; rfl
      · split
        · right; right; rfl
        · right; left; rfl
  · split
    · split
      · left; rfl
      · split
        · right; right; rfl
        · right; left; rfl
    · left; rfl

theorem cancelActive_no_symbol (s : PipelineState) (sym : String)
    (hst : ∀ p ∈ s.active_quotes, p.2.status ∈ ActiveStatuses) :
    ∀ q ∈ (cancelActiveQuotesForSymbol s sym).1.active_quotes,
      (decide (q.2.symbol_dst = sym)) = false := by
  intro q hq
  simp only [cancelActiveQuotesForSymbol] at hq
  have hmem := List.mem_of_mem_filter hq
  have hcond := List.of_mem_filter hq
  simp only [Bool.not_eq_true'] at hcond
  simp only [decide_eq_false_iff_not]
  intro hsym
  have := hst q hmem
  simp [hsym, this] at hcond

theorem pipeStep_inv (risk : RiskSettings) (trading : TradingSettings)
    (s : PipelineState) (op : PipeOp) (h : PipeInv s) :
    PipeInv (pipeStep risk trading s op) := by
  obtain ⟨hnd, hst, hcnt⟩ := h
  cases op with
  | start => exact ⟨hnd, hst, hcnt⟩
  | cancelForSymbol sym =>
      exact pipeInv_of_sublist (List.filter_sublist _) hnd hst hcnt
  | orderUpdate oid =>
      simp only [pipeStep, onOrderUpdate]
      split
      · exact ⟨hnd, hst, hcnt⟩
      · split
        · exact ⟨hnd, hst, hcnt⟩
        · split
          · split
            · exact pipeInv_of_sublist (List.filter_sublist _) hnd hst hcnt
            · exact ⟨hnd, hst, hcnt⟩
          · exact ⟨hnd, hst, hcnt⟩
  | cleanupExpired ids =>
      exact pipeInv_of_sublist (List.filter_sublist _) hnd hst hcnt
  | stop =>
      refine ⟨by simp [pipeStep, pipeStop], ?_, ?_⟩
      · intro p hp
        simp [pipeStep, pipeStop] at hp
      · intro sym
        simp [pipeStep, pipeStop, countFor]
  | processQ qi vb va =>
      simp only [pipeStep, processQuote]
      split
      · exact ⟨hnd, hst, hcnt⟩
      · have hsub : (cancelActiveQuotesForSymbol s qi.symbol_dst).1.active_quotes.Sublist
            s.active_quotes := List.filter_sublist _
        obtain ⟨hnd₀, hst₀, hcnt₀⟩ := pipeInv_of_sublist hsub hnd hst hcnt
        split
        · exact ⟨hnd₀, hst₀, hcnt₀⟩
        · split
          · exact ⟨hnd₀, hst₀, hcnt₀⟩
          · refine ⟨keys_nodup_insertA hnd₀, ?_, ?_⟩
            · intro p hp
              rcases mem_insertA hp with he | hm
              · rw [he]
                rcases generateAndSubmit_status risk trading
                    (cancelActiveQuotesForSymbol s qi.symbol_dst).1.oms
                    { fromQuote trading qi with status := QuoteStatus.persisted }
                    qi vb va with hq | hq | hq <;>
                  simp_all [ActiveStatuses]
              · exact hst₀ p hm
            · intro sym
              by_cases hsym : sym = qi.symbol_dst
              · subst hsym
                refine length_filter_insertA_le_one hnd₀ ?_
                intro p hp
                exact cancelActive_no_symbol s qi.symbol_dst hst p hp
              · refine le_trans (length_filter_insertA_le_of_neg ?_) (hcnt₀ sym)
                simp only [decide_eq_false_iff_not]
                rw [generateAndSubmit_symbol]
                simp only [fromQuote]
                intro hc
                exact hsym hc.symm

theorem pipeRun_inv (risk : RiskSettings) (trading : TradingSettings)
    (ops : List PipeOp) : ∀ s, PipeInv s → PipeInv (pipeRun risk trading s ops) := by
  induction ops with
  | nil => intro s hs; exact hs
  | cons op ops ih =>
      intro s hs
      exact ih _ (pipeStep_inv risk trading s op hs)

/-- Claim C1: for every destination symbol, after any run of pipeline
operations that ends with a `process_quote` call (successful or not —
the invariant holds a fortiori after every successful one), the
pipeline's `active_quotes` map contains at most one PersistentQuote for
that symbol. -/
theorem C1_at_most_one_active_quote_per_symbol (risk : RiskSettings)
    (trading : TradingSettings) (ops : List PipeOp) (qi : QuoteInput)
    (vb va : Bool) (sym : String) :
    countFor (pipeRun risk trading {} (ops ++ [PipeOp.processQ qi vb va])).active_quotes
      sym ≤ 1 := by
  have h0 : PipeInv ({} : PipelineState) := by
    refine ⟨by simp, by intro p hp; simp at hp, by intro s; simp [countFor]⟩
  exact (pipeRun_inv risk trading (ops ++ [PipeOp.processQ qi vb va])
    {} h0).2.2 sym

/-- The open-order count the budget gate reads: the risk manager's
counter after cancelling the previous ladder for the symbol. -/
def countAfterCancel (s : PipelineState) (sym : String) : Int :=
  (cancelActiveQuotesForSymbol s sym).1.oms.openOrderCount

/-- When the budget gate fires, process_quote aborts unpersisted. -/
theorem processQuote_budget_abort (risk : RiskSettings)
    (trading : TradingSettings) (s : PipelineState) (qi : QuoteInput)
    (vb va : Bool) (hrun : s.running = true)
    (hb : countAfterCancel s qi.symbol_dst + (ordersToCreate trading : Int)
      > risk.max_open_orders) :
    (processQuote risk trading s qi vb va).2 =
      { err := some budgetExceededMsg, persisted := false, orders_created := 0 } := by
  simp only [countAfterCancel] at hb
  simp only [processQuote]
  rw [if_neg (by simp [hrun]), if_pos hb]

theorem processQuote_persisted_of_le (risk : RiskSettings)
    (trading : TradingSettings) (s : PipelineState) (qi : QuoteInput)
    (vb va : Bool) (hrun : s.running = true)
    (hb : ¬ (countAfterCancel s qi.symbol_dst + (ordersToCreate trading : Int)
      > risk.max_open_orders)) :
    (processQuote risk trading s qi vb va).2.persisted = true := by
  simp only [countAfterCancel] at hb
  simp only [processQuote]
  rw [if_neg (by simp [hrun]), if_neg hb]
  split <;> rfl

/-- Claim C3: with the pipeline running, `process_quote` aborts with an
error containing "would exceed limit" — before persisting the quote and
before creating any order — exactly when, after cancelling the previous
ladder, the open-order count plus the number of enabled sides in
(bid, ask) exceeds `max_open_orders`; consequently whenever
`process_quote` does not raise, the open-order count at the gate is at
most `max_open_orders`.  (`ordersToCreate` is the code's count over the
`side_enable` list; the last conjunct identifies it with the cardinality
of `side_enable ∩ (bid, ask)` for duplicate-free configurations.) -/
theorem C3_budget_gate (risk : RiskSettings) (trading : TradingSettings)
    (s : PipelineState) (qi : QuoteInput) (vb va : Bool)
    (hrun : s.running = true) :
    (((∃ m, (processQuote risk trading s qi vb va).2.err = some m ∧
          "would exceed limit".data <:+: m.data) ∧
        (processQuote risk trading s qi vb va).2.persisted = false ∧
        (processQuote risk trading s qi vb va).2.orders_created = 0)
      ↔ countAfterCancel s qi.symbol_dst + (ordersToCreate trading : Int)
          > risk.max_open_orders)
    ∧ ((processQuote risk trading s qi vb va).2.err = none →
        countAfterCancel s qi.symbol_dst + (ordersToCreate trading : Int)
            ≤ risk.max_open_orders
          ∧ countAfterCancel s qi.symbol_dst ≤ risk.max_open_orders)
    ∧ (trading.side_enable.Nodup →
        ordersToCreate trading
          = ((trading.side_enable.filter (fun x => x = "bid" ∨ x = "ask")).dedup).length) := by
  by_cases hb : countAfterCancel s qi.symbol_dst + (ordersToCreate trading : Int)
      > risk.max_open_orders
  · have ha := processQuote_budget_abort risk trading s qi vb va hrun hb
    refine ⟨?_, ?_, ?_⟩
    · rw [ha]
      constructor
      · intro _
        exact hb
      · intro _
        exact ⟨⟨budgetExceededMsg, rfl, by decide⟩, rfl, rfl⟩
    · rw [ha]
      intro h
      simp at h
    · intro hnd
      rw [(hnd.filter _).dedup]
      rfl
  · have hp := processQuote_persisted_of_le risk trading s qi vb va hrun hb
    refine ⟨?_, ?_, ?_⟩
    · constructor
      · rintro ⟨_, hpers, _⟩
        rw [hp] at hpers
        simp at hpers
      · intro hgt
        exact absurd hgt hb
    · intro _
      have hotc : (0 : Int) ≤ (ordersToCreate trading : Int) := Int.ofNat_nonneg _
      constructor
      · omega
      · omega
    · intro hnd
      rw [(hnd.filter _).dedup]
      rfl

theorem C3_budget_gate_witness :
    (({ running := true } : PipelineState)).running = true ∧
    ((processQuote defaultRisk defaultTrading { running := true }
        { quote_id := "q1", symbol_dst := "ADAUSDM" } true true).2.err = none →
      countAfterCancel ({ running := true } : PipelineState) "ADAUSDM"
          + (ordersToCreate defaultTrading : Int) ≤ defaultRisk.max_open_orders
        ∧ countAfterCancel ({ running := true } : PipelineState) "ADAUSDM"
          ≤ defaultRisk.max_open_orders) :=
  ⟨rfl, (C3_budget_gate defaultRisk defaultTrading { running := true }
      { quote_id := "q1", symbol_dst := "ADAUSDM" } true true rfl).2.1⟩

/-- One SQL write performed by the quote-persist path. -/
inductive DbWrite where
  | insertQuoteRow (quote_id : String)
  | insertOutboxEvent (event_type : String) (aggregate_id : String)
  deriving DecidableEq, Repr

/-- A database transaction: the writes that become durable together at
its commit. -/
structure Txn where
  writes : List DbWrite
  deriving DecidableEq, Repr

/-- The transactions `_persist_quote` performs
(bot/quote_to_order_pipeline.py): `QuoteRepository.save_quote` executes
the quotes INSERT and commits on its own connection, and then
`outbox_repo.add_event` (bot/db/repo.py) executes the outbox INSERT
through `db_manager.execute`, which commits separately
(bot/db/sqlite.py, `SQLiteManager.execute`, non-fetch branch).  The
path therefore commits two transactions, quote row first. -/
def persistQuoteTxns (q : PQuote) : List Txn :=
  [⟨[DbWrite.insertQuoteRow q.quote_id]⟩,
   ⟨[DbWrite.insertOutboxEvent "quote_persisted" q.quote_id]⟩]

/-- Crash-durability semantics: after a crash, the durable writes are
those of some prefix of the committed transactions (each transaction is
atomic). -/
def durableWrites (txns : List Txn) (k : ℕ) : List DbWrite :=
  ((txns.take k).map Txn.writes).join

/-- The quote row is durable. -/
def quoteDurable (ws : List DbWrite) (qid : String) : Bool :=
  DbWrite.insertQuoteRow qid ∈ ws

/-- The `quote_persisted` outbox event is durable. -/
def eventDurable (ws : List DbWrite) (qid : String) : Bool :=
  DbWrite.insertOutboxEvent "quote_persisted" qid ∈ ws

/-- A concrete quote for the C6 counterexample. -/
def c6quote : PQuote := { quote_id := "q1", symbol_dst := "ADAUSDM" }

/-- Claim C6, counterexample: a crash after `save_quote`'s commit and
before `add_event`'s commit (durable prefix of length 1) leaves the
quote row durable and the `quote_persisted` outbox event not durable, so
the two writes are not atomic. -/
theorem C6_counterexample_quote_without_event :
    quoteDurable (durableWrites (persistQuoteTxns c6quote) 1) "q1" = true
    ∧ eventDurable (durableWrites (persistQuoteTxns c6quote) 1) "q1" = false := by
  constructor <;> decide

/-- Claim C6, amended: `_persist_quote` writes the quote row and the
`quote_persisted` outbox event in two separate transactions, quote row
committed first; hence every durable prefix containing the event also
contains the quote row, but a crash between the two commits leaves the
quote row durable without the event. -/
theorem C6_amended_persist_two_transactions (q : PQuote) :
    (∀ k, eventDurable (durableWrites (persistQuoteTxns q) k) q.quote_id = true →
      quoteDurable (durableWrites (persistQuoteTxns q) k) q.quote_id = true)
    ∧ quoteDurable (durableWrites (persistQuoteTxns q) 1) q.quote_id = true
    ∧ eventDurable (durableWrites (persistQuoteTxns q) 1) q.quote_id = false := by
  refine ⟨?_, ?_, ?_⟩
  · intro k h
    match k with
    | 0 => simp [durableWrites, eventDurable, persistQuoteTxns] at h
    | 1 => simp [durableWrites, eventDurable, persistQuoteTxns] at h
    | n + 2 => simp [durableWrites, quoteDurable, persistQuoteTxns, List.take_succ_cons]
  · simp [durableWrites, quoteDurable, persistQuoteTxns]
  · simp [durableWrites, eventDurable, persistQuoteTxns]

theorem C6_amended_persist_two_transactions_witness :
    eventDurable (durableWrites (persistQuoteTxns c6quote) 2) "q1" = true
    ∧ quoteDurable (durableWrites (persistQuoteTxns c6quote) 2) "q1" = true :=
  ⟨by decide, (C6_amended_persist_two_transactions c6quote).1 2 (by decide)⟩

/-- bot/quote.py, `LayeredQuote`. -/
structure LayeredQuote where
  layer : ℕ
  price : ℚ
  quantity : ℚ
  spread_bps : ℚ
  deriving DecidableEq, Repr

/-- The trading-config fields the layer generators read (bot/config.py,
`TradingConfig` defaults). -/
structure QuoteEngineCfg where
  num_layers : ℕ := 10
  base_spread_bps : ℚ := 8
  tick_spread_bps : ℚ := 10
  layer_liquidity_multiplier : ℚ := 1
  total_liquidity : ℚ := 5000
  min_quote_size : ℚ := 10
  deriving DecidableEq, Repr

/-- bot/asset_ratio_manager.py, `RatioAdjustment` (the four multipliers;
defaults are the neutral adjustment returned when balance data is
missing). -/
structure RatioAdjustment where
  bid_spread_multiplier : ℚ := 1
  ask_spread_multiplier : ℚ := 1
  bid_liquidity_multiplier : ℚ := 1
  ask_liquidity_multiplier : ℚ := 1
  deriving DecidableEq, Repr

/-- Round half-up to `prec` decimal places.  The bot's layer code calls
Python's builtin `round`, which rounds half to even; the two coincide
except at exact decimal ties, which none of the inputs considered here
produce (the module's own `_round_price` uses `ROUND_HALF_UP`). -/
def roundHalfUpTo (prec : ℕ) (x : ℚ) : ℚ :=
  (Int.floor (x * 10 ^ prec + 1 / 2) : ℚ) / 10 ^ prec

/-- bot/quote.py, `QuoteEngine._generate_bid_layers`.
`sideEnabledBid` is `settings.is_side_enabled("bid")` and `bid_alloc`
the bid share from `get_capital_allocation`; `layer_i` runs over
`range(1, num_layers + 1)`. -/
def generateBidLayers (cfg : QuoteEngineCfg) (adj : RatioAdjustment)
    (bid_alloc : ℚ) (sideEnabledBid : Bool) (bid_reference_price : ℚ) :
    Option (List LayeredQuote) :=
  if sideEnabledBid = false then none
  else
    let total_available_liquidity := cfg.total_liquidity * bid_alloc
    let base_layer_notional := total_available_liquidity / (cfg.num_layers : ℚ)
    some ((List.range cfg.num_layers).map (fun (i : ℕ) =>
      let layer_i : ℚ := (i : ℚ) + 1
      let base_spread_bps := cfg.base_spread_bps + (layer_i - 1) * cfg.tick_spread_bps
      let adjusted_spread_bps := base_spread_bps * adj.bid_spread_multiplier
      let layer_price := bid_reference_price * (1 - adjusted_spread_bps / 10000)
      let growth_factor := 1 + (layer_i - 1) * cfg.layer_liquidity_multiplier
      let base_quantity := base_layer_notional * growth_factor / layer_price
      let layer_quantity := base_quantity * adj.bid_liquidity_multiplier
      let layer_quantity := if layer_quantity < cfg.min_quote_size then
        cfg.min_quote_size else layer_quantity
      { layer := i + 1, price := roundHalfUpTo 6 layer_price,
        quantity := roundHalfUpTo 2 layer_quantity,
        spread_bps := adjusted_spread_bps }))

/-- bot/quote.py, `QuoteEngine._generate_ask_layers`. -/
def generateAskLayers (cfg : QuoteEngineCfg) (adj : RatioAdjustment)
    (ask_alloc : ℚ) (sideEnabledAsk : Bool) (ask_reference_price : ℚ) :
    Option (List LayeredQuote) :=
  if sideEnabledAsk = false then none
  else
    let total_available_liquidity := cfg.total_liquidity * ask_alloc
    let base_layer_notional := total_available_liquidity / (cfg.num_layers : ℚ)
    some ((List.range cfg.num_layers).map (fun (i : ℕ) =>
      let layer_i : ℚ := (i : ℚ) + 1
      let base_spread_bps := cfg.base_spread_bps + (layer_i - 1) * cfg.tick_spread_bps
      let adjusted_spread_bps := base_spread_bps * adj.ask_spread_multiplier
      let layer_price := ask_reference_price * (1 + adjusted_spread_bps / 10000)
      let growth_factor := 1 + (layer_i - 1) * cfg.layer_liquidity_multiplier
      let base_quantity := base_layer_notional * growth_factor / layer_price
      let layer_quantity := base_quantity * adj.ask_liquidity_multiplier
      let layer_quantity := if layer_quantity < cfg.min_quote_size then
        cfg.min_quote_size else layer_quantity
      { layer := i + 1, price := roundHalfUpTo 6 layer_price,
        quantity := roundHalfUpTo 2 layer_quantity,
        spread_bps := adjusted_spread_bps }))

/-- The configuration of the claim's concrete scenario: `num_layers=3`,
`base_spread_bps=8`, `tick_spread_bps=4`, `total_liquidity=3000`,
`min_quote_size=10`. -/
def c7cfg : QuoteEngineCfg :=
  { num_layers := 3, base_spread_bps := 8, tick_spread_bps := 4,
    total_liquidity := 3000, min_quote_size := 10 }

/-- Claim C7, counterexample: with the claim's configuration and ticker
(1.0000, 1.0010), the ask layer prices produced by the code are
1.001801, 1.002201, 1.002602 — the claim's own formula gives
1.0010·1.0008 = 1.0018008, which rounds to 1.001801, not the claimed
1.00180000 (the repository's test_quote_engine.py asserts 1.001801 as
well); the bid prices 0.9992, 0.9988, 0.9984 are as claimed. -/
theorem C7_counterexample_ask_prices :
    ((generateAskLayers c7cfg {} (1/2) true (10010/10000)).map
        (fun ls => ls.map LayeredQuote.price))
      = some [1001801/1000000, 1002201/1000000, 1002602/1000000]
    ∧ ((generateBidLayers c7cfg {} (1/2) true 1).map
        (fun ls => ls.map LayeredQuote.price))
      = some [9992/10000, 9988/10000, 9984/10000]
    ∧ (1001801/1000000 : ℚ) ≠ 100180000/100000000 := by
  refine ⟨?_, ?_, by norm_num⟩ <;>
    norm_num [generateAskLayers, generateBidLayers, c7cfg, roundHalfUpTo,
      List.range_succ]

/-- An if-clamp written as a max. -/
theorem if_lt_min_eq_max (q m : ℚ) : (if q < m then m else q) = max m q := by
  rw [max_def]
  rcases le_or_lt m q with h | h
  · rw [if_neg (not_lt.mpr h), if_pos h]
  · rw [if_pos h, if_neg (not_le.mpr h)]

/-- Claim C7, amended: for every layer index and side, the generated
price is `ref·(1 ∓ adjusted_spread_bps/10000)` rounded half-up to 6
decimal places with
`adjusted_spread_bps = (base_spread_bps + (i−1)·tick_spread_bps)·ratio_spread_mult`,
and the quantity is the liquidity formula clamped below by
`min_quote_size` and rounded half-up to 2 decimal places; in the claim's
concrete scenario the bid prices are 0.9992, 0.9988, 0.9984 and the ask
prices are 1.001801, 1.002201, 1.002602 (not 1.0018, 1.0022, 1.0026). -/
theorem C7_amended_layer_prices (cfg : QuoteEngineCfg) (adj : RatioAdjustment)
    (ba aa rb ra : ℚ) (i : ℕ) (hi : i < cfg.num_layers) :
    ((generateBidLayers cfg adj ba true rb).getD []).get? i
      = some
        { layer := i + 1,
          price := roundHalfUpTo 6
            (rb * (1 - (cfg.base_spread_bps + i * cfg.tick_spread_bps)
              * adj.bid_spread_multiplier / 10000)),
          quantity := roundHalfUpTo 2
            (max cfg.min_quote_size
              (cfg.total_liquidity * ba / (cfg.num_layers : ℚ)
                * (1 + i * cfg.layer_liquidity_multiplier)
                / (rb * (1 - (cfg.base_spread_bps + i * cfg.tick_spread_bps)
                    * adj.bid_spread_multiplier / 10000))
                * adj.bid_liquidity_multiplier)),
          spread_bps := (cfg.base_spread_bps + i * cfg.tick_spread_bps)
            * adj.bid_spread_multiplier }
    ∧ ((generateAskLayers cfg adj aa true ra).getD []).get? i
      = some
        { layer := i + 1,
          price := roundHalfUpTo 6
            (ra * (1 + (cfg.base_spread_bps + i * cfg.tick_spread_bps)
              * adj.ask_spread_multiplier / 10000)),
          quantity := roundHalfUpTo 2
            (max cfg.min_quote_size
              (cfg.total_liquidity * aa / (cfg.num_layers : ℚ)
                * (1 + i * cfg.layer_liquidity_multiplier)
                / (ra * (1 + (cfg.base_spread_bps + i * cfg.tick_spread_bps)
                    * adj.ask_spread_multiplier / 10000))
                * adj.ask_liquidity_multiplier)),
          spread_bps := (cfg.base_spread_bps + i * cfg.tick_spread_bps)
            * adj.ask_spread_multiplier }
    ∧ ((generateAskLayers c7cfg {} (1/2) true (10010/10000)).map
        (fun ls => ls.map LayeredQuote.price))
      = some [1001801/1000000, 1002201/1000000, 1002602/1000000]
    ∧ ((generateBidLayers c7cfg {} (1/2) true 1).map
        (fun ls => ls.map LayeredQuote.price))
      = some [9992/10000, 9988/10000, 9984/10000] := by
  refine ⟨?_, ?_, ?_, ?_⟩
  · simp only [generateBidLayers, Bool.true_eq_false, if_false, Option.getD_some]
    rw [List.get?_map, List.get?_range hi]
    simp only [Option.map_some']
    congr 1
    simp only [LayeredQuote.mk.injEq]
    refine ⟨by trivial, ?_, ?_, by push_cast; ring⟩
    · congr 1
      push_cast
      ring
    · rw [if_lt_min_eq_max]
      congr 1
      congr 1
      push_cast
      ring
  · simp only [generateAskLayers, Bool.true_eq_false, if_false, Option.getD_some]
    rw [List.get?_map, List.get?_range hi]
    simp only [Option.map_some']
    congr 1
    simp only [LayeredQuote.mk.injEq]
    refine ⟨by trivial, ?_, ?_, by push_cast; ring⟩
    · congr 1
      push_cast
      ring
    · rw [if_lt_min_eq_max]
      congr 1
      congr 1
      push_cast
      ring
  · norm_num [generateAskLayers, c7cfg, roundHalfUpTo, List.range_succ]
  · norm_num [generateBidLayers, c7cfg, roundHalfUpTo, List.range_succ]

theorem C7_amended_layer_prices_witness :
    0 < c7cfg.num_layers ∧
    ((generateAskLayers c7cfg {} (1/2) true (10010/10000)).map
        (fun ls => ls.map LayeredQuote.price))
      = some [1001801/1000000, 1002201/1000000, 1002602/1000000] :=
  ⟨by norm_num [c7cfg],
   (C7_amended_layer_prices c7cfg {} (1/2) (1/2) 1 (10010/10000) 0
     (by norm_num [c7cfg])).2.2.1⟩

/-- Outbox event status (bot/db/outbox_worker.py, `EventStatus`). -/
inductive EventStatus where
  | pending
  | processing
  | completed
  | failed
  | dead_letter
  deriving DecidableEq, Repr

/-- An outbox table row — the columns the worker and repository touch
(created_at / processed_at / last_error_at omitted). -/
structure OutboxRow where
  event_id : String
  event_type : String
  status : EventStatus := EventStatus.pending
  retry_count : ℕ := 0
  max_retries : ℕ := 5
  next_retry_at : Option ℚ := none
  error_message : Option String := none
  deriving DecidableEq, Repr

/-- bot/db/outbox_worker.py, `RetryConfig`. -/
structure RetryConfig where
  max_retries : ℕ := 5
  base_delay : ℚ := 60
  max_delay : ℚ := 3600
  backoff_multiplier : ℚ := 2
  jitter : Bool := true
  deriving DecidableEq, Repr

/-- bot/db/repo.py, `OutboxRepository.mark_event_processing`. -/
def markEventProcessing (r : OutboxRow) : OutboxRow :=
  { r with status := EventStatus.processing }

/-- bot/db/repo.py, `OutboxRepository.mark_event_failed` — the SQL CASE:
if the row's retry_count has reached the row's max_retries, the row
moves to dead_letter with NULL next_retry_at, else to failed with
next_retry_at = now + delay; retry_count increments either way. -/
def markEventFailed (now : ℚ) (errorMsg : String) (retry_delay_seconds : Int)
    (r : OutboxRow) : OutboxRow :=
  if r.retry_count ≥ r.max_retries then
    { r with
        status := EventStatus.dead_letter,
        retry_count := r.retry_count + 1,
        error_message := some errorMsg,
        next_retry_at := none }
  else
    { r with
        status := EventStatus.failed,
        retry_count := r.retry_count + 1,
        error_message := some errorMsg,
        next_retry_at := some (now + retry_delay_seconds) }

/-- bot/db/outbox_worker.py, `OutboxWorker._calculate_retry_delay`:
min(base_delay · multiplier ^ retry_count, max_delay), multiplied by the
sampled jitter factor (uniform in 0.8 … 1.2) when jitter is enabled, and
truncated to int (delays are nonnegative, so `int()` is the floor). -/
def calculateRetryDelay (cfg : RetryConfig) (retry_count : ℕ)
    (jitterSample : ℚ) : Int :=
  let delay := min (cfg.base_delay * cfg.backoff_multiplier ^ retry_count)
    cfg.max_delay
  if cfg.jitter then Int.floor (delay * jitterSample) else Int.floor delay

/-- bot/db/outbox_worker.py, `OutboxWorker._handle_event` when the
handler raises: the event is first marked PROCESSING; then, if the
fetched row's retry_count has reached the worker's max_retries, the
dead-letter path calls `outbox_repo.mark_event_dead_letter` — a method
`OutboxRepository` (bot/db/repo.py) does not define — so an
AttributeError is raised and the row stays PROCESSING (the Bool records
that this AttributeError escaped); otherwise `mark_event_failed` runs
with the computed backoff delay. -/
def handleEventFailing (cfg : RetryConfig) (now jitterSample : ℚ)
    (errMsg : String) (r : OutboxRow) : OutboxRow × Bool :=
  let r₁ := markEventProcessing r
  if r.retry_count ≥ cfg.max_retries then (r₁, true)
  else
    (markEventFailed now errMsg
      (calculateRetryDelay cfg r.retry_count jitterSample) r₁, false)

/-- bot/db/repo.py, `OutboxRepository.get_pending_events` selection:
status pending, or failed with next_retry_at ≤ now. -/
def selectable (now : ℚ) (r : OutboxRow) : Bool :=
  decide (r.status = EventStatus.pending) ||
    (decide (r.status = EventStatus.failed) && match r.next_retry_at with
      | some t => decide (t ≤ now)
      | none => false)

/-- Worker polls against a single event whose handler always throws:
at each poll instant (with its jitter sample) the event is handled when
selectable; the Bool accumulates whether an AttributeError escaped. -/
def runFailingAttempts (cfg : RetryConfig) :
    List (ℚ × ℚ) → OutboxRow × Bool → OutboxRow × Bool
  | [], rb => rb
  | (now, j) :: rest, (r, raised) =>
      if selectable now r then
        let h := handleEventFailing cfg now j "boom" r
        runFailingAttempts cfg rest (h.1, raised || h.2)
      else runFailingAttempts cfg rest (r, raised)

/-- The C8 scenario: worker retry config and row both with
max_retries = 3, event initially PENDING with retry_count 0. -/
def c8cfg : RetryConfig := { max_retries := 3 }

/-- The C8 scenario's initial outbox row. -/
def c8row : OutboxRow :=
  { event_id := "e1", event_type := "order_created", max_retries := 3 }

/-- Claim C8 (code bug): with max_retries = 3 and an always-throwing
handler, polling at 0 s, 10000 s, 20000 s, 30000 s and 40000 s (jitter
sample 1) marks the event FAILED three times with backoff 60·2^k capped
at 3600, and on the fourth attempt (retry_count 3 ≥ 3) the dead-letter
path raises AttributeError (`OutboxRepository.mark_event_dead_letter`
does not exist), leaving the event stuck in PROCESSING with
retry_count 3 and a stale next_retry_at — never DEAD_LETTER with NULL
next_retry_at — and no further poll selects it; the admin reset path
(`reset_event_for_reprocessing`) does not exist either. -/
theorem C8_outbox_dlq_path_raises :
    (runFailingAttempts c8cfg [(0, 1), (10000, 1), (20000, 1), (30000, 1), (40000, 1)]
        (c8row, false)).1.status = EventStatus.processing
    ∧ (runFailingAttempts c8cfg [(0, 1), (10000, 1), (20000, 1), (30000, 1), (40000, 1)]
        (c8row, false)).1.retry_count = 3
    ∧ (runFailingAttempts c8cfg [(0, 1), (10000, 1), (20000, 1), (30000, 1), (40000, 1)]
        (c8row, false)).1.next_retry_at = some 20240
    ∧ (runFailingAttempts c8cfg [(0, 1), (10000, 1), (20000, 1), (30000, 1), (40000, 1)]
        (c8row, false)).2 = true
    ∧ (runFailingAttempts c8cfg [(0, 1), (10000, 1), (20000, 1), (30000, 1), (40000, 1)]
        (c8row, false)).1.status ≠ EventStatus.dead_letter
    ∧ selectable 1000000000
        (runFailingAttempts c8cfg [(0, 1), (10000, 1), (20000, 1), (30000, 1), (40000, 1)]
          (c8row, false)).1 = false := by
  have key : runFailingAttempts c8cfg [(0, 1), (10000, 1), (20000, 1), (30000, 1), (40000, 1)]
      (c8row, false)
      = ({ event_id := "e1", event_type := "order_created",
           status := EventStatus.processing, retry_count := 3, max_retries := 3,
           next_retry_at := some 20240, error_message := some "boom" }, true) := by
    norm_num [runFailingAttempts, c8cfg, c8row, selectable, handleEventFailing,
      markEventProcessing, markEventFailed, calculateRetryDelay]
  rw [key]
  refine ⟨rfl, rfl, rfl, rfl, by simp, by simp [selectable]⟩

/-- An on-venue open order as returned by `get_open_orders` — the dict
keys the reaper reads ("order_id", "id", "created_at", "timestamp");
timestamps are modelled as numbers (the isinstance check in the source
always passes for them). -/
structure ExchangeOrder where
  order_id : Option String := none
  generic_id : Option String := none
  symbol : Option String := none
  created_at : Option ℚ := none
  timestamp_alt : Option ℚ := none
  deriving DecidableEq, Repr

/-- `str(order.get("order_id") or order.get("id", ""))`
(bot/unregistered_order_cleanup.py): Python `or` falls through on None
and on the empty string. -/
def effectiveId (o : ExchangeOrder) : String :=
  match o.order_id with
  | some s => if s = "" then o.generic_id.getD "" else s
  | none => o.generic_id.getD ""

/-- `order.get("created_at", order.get("timestamp", 0))`. -/
def orderTime (o : ExchangeOrder) : ℚ :=
  o.created_at.getD (o.timestamp_alt.getD 0)

/-- bot/unregistered_order_cleanup.py,
`UnregisteredOrderCleanupService._find_unregistered_orders`: an order is
kept iff its effective id is nonempty, not registered, and its age
`nowMs − order_time` is not below `timeout_ms` (the source skips it when
`order_age_ms < timeout_ms`). -/
def findUnregisteredOrders (nowMs timeout_ms : ℚ) (registered_ids : List String)
    (exchange_orders : List ExchangeOrder) : List ExchangeOrder :=
  exchange_orders.filter (fun o =>
    decide (effectiveId o ≠ "") &&
    decide (effectiveId o ∉ registered_ids) &&
    ! decide (nowMs - orderTime o < timeout_ms))

/-- A local `orders`-table row — the columns the reaper reads. -/
structure DbOrderRow where
  order_id : String
  status : String
  deltadefi_order_id : Option String := none
  deriving DecidableEq, Repr

/-- Modelled from the spec: the view `v_active_orders` (defined in
schema.sql, which is not under src/) selects orders in states PENDING
and WORKING (spec §6: "views v_active_orders (states PENDING,
WORKING)"). -/
def vActiveOrders (rows : List DbOrderRow) : List DbOrderRow :=
  rows.filter (fun r => decide (r.status = "pending") || decide (r.status = "working"))

/-- bot/unregistered_order_cleanup.py, `_get_registered_orders`: the
truthy `deltadefi_order_id` values of the active order rows. -/
def getRegisteredOrders (rows : List DbOrderRow) : List String :=
  (vActiveOrders rows).filterMap (fun r =>
    match r.deltadefi_order_id with
    | some d => if d = "" then none else some d
    | none => none)

/-- An action of the cancel loop. -/
inductive ReaperAction where
  | cancel (order_id : String)
  | sleep (seconds : ℚ)
  deriving DecidableEq, Repr

/-- bot/unregistered_order_cleanup.py, `_cancel_unregistered_orders`, on
the no-exception path: orders with a missing id are skipped (the
`continue` also skips that iteration's batch check); each cancelled
order is followed by a 0.5 s sleep, and after every 5th loop index a
3 s batch pause; `i` is the running `enumerate` index. -/
def cancelTrace : List ExchangeOrder → ℕ → List ReaperAction
  | [], _ => []
  | o :: rest, i =>
      if effectiveId o = "" then cancelTrace rest (i + 1)
      else
        [ReaperAction.cancel (effectiveId o), ReaperAction.sleep (1/2)] ++
        (if (i + 1) % 5 = 0 then [ReaperAction.sleep 3] else []) ++
        cancelTrace rest (i + 1)

/-- The cancel requests issued by a trace, in order. -/
def cancelsOf (l : List ReaperAction) : List String :=
  l.filterMap (fun a =>
    match a with
    | ReaperAction.cancel oid => some oid
    | ReaperAction.sleep _ => none)

/-- Pacing check: along the trace, every cancel after the first is
preceded by at least `1/2` seconds of accumulated sleep since the
previous cancel.  `acc` is the sleep accumulated so far and
`seenCancel` whether a cancel has occurred. -/
def pacedFrom (acc : ℚ) (seenCancel : Bool) : List ReaperAction → Bool
  | [] => true
  | ReaperAction.sleep d :: rest => pacedFrom (acc + d) seenCancel rest
  | ReaperAction.cancel _ :: rest =>
      (!seenCancel || decide (acc ≥ 1/2)) && pacedFrom 0 true rest

/-- At least 0.5 s of sleep between consecutive cancels. -/
def paced (l : List ReaperAction) : Bool := pacedFrom 0 false l

/-- The boundary order for the C9 counterexample: its age is exactly the
grace window. -/
def c9wOrder : ExchangeOrder := { order_id := some "W", created_at := some 9995000 }

/-- Claim C9, counterexample: with `now = 10000000 ms` and
`order_registration_timeout_ms = 5000`, an unregistered on-venue order
whose age is exactly 5000 ms is classified unregistered (the source
skips only when `age < timeout`), although its age does not exceed the
timeout — refuting the claimed "if and only if … age exceeds
order_registration_timeout_ms". -/
theorem C9_counterexample_age_boundary :
    findUnregisteredOrders 10000000 5000 [] [c9wOrder] = [c9wOrder]
    ∧ ¬ (10000000 - orderTime c9wOrder > 5000) := by
  constructor
  · norm_num [findUnregisteredOrders, effectiveId, orderTime, c9wOrder]
    decide
  · norm_num [orderTime, c9wOrder]

theorem pacedFrom_cancelTrace (orders : List ExchangeOrder) :
    ∀ (i : ℕ) (acc : ℚ) (seen : Bool), (seen = true → acc ≥ 1/2) →
      pacedFrom acc seen (cancelTrace orders i) = true := by
  induction orders with
  | nil => intro i acc seen _; rfl
  | cons o rest ih =>
      intro i acc seen hacc
      rw [cancelTrace]
      split
      · exact ih (i + 1) acc seen hacc
      · have h1 : (!seen || decide (acc ≥ 1/2)) = true := by
          cases seen with
          | false => rfl
          | true =>
              simp only [Bool.not_true, Bool.false_or, decide_eq_true_eq]
              exact hacc rfl
        by_cases h5 : (i + 1) % 5 = 0
        · rw [if_pos h5]
          simp only [List.cons_append, List.nil_append, pacedFrom]
          rw [h1, Bool.true_and]
          exact ih (i + 1) (0 + 1/2 + 3) true (by intro _; norm_num)
        · rw [if_neg h5]
          simp only [List.cons_append, List.nil_append, pacedFrom]
          rw [h1, Bool.true_and]
          exact ih (i + 1) (0 + 1/2) true (by intro _; norm_num)

theorem cancelsOf_cancelTrace (orders : List ExchangeOrder) :
    ∀ i : ℕ, cancelsOf (cancelTrace orders i)
      = (orders.filter (fun o => effectiveId o ≠ "")).map effectiveId := by
  induction orders with
  | nil => intro i; rfl
  | cons o rest ih =>
      intro i
      by_cases h : effectiveId o = ""
      · rw [cancelTrace, if_pos h, List.filter_cons_of_neg (by simp [h]), ih (i + 1)]
      · rw [cancelTrace, if_neg h, List.filter_cons_of_pos (by simp [h])]
        have hrest := ih (i + 1)
        simp only [cancelsOf] at hrest ⊢
        by_cases h5 : (i + 1) % 5 = 0
        · rw [if_pos h5]
          simp only [List.cons_append, List.nil_append, List.filterMap_cons,
            List.map_cons]
          rw [hrest]
        · rw [if_neg h5]
          simp only [List.cons_append, List.nil_append, List.filterMap_cons,
            List.map_cons]
          rw [hrest]

/-- The C9 scenario's local order rows: X and Y are the external ids of
the PENDING/WORKING local orders. -/
def c9rows : List DbOrderRow :=
  [{ order_id := "l1", status := "pending", deltadefi_order_id := some "X" },
   { order_id := "l2", status := "working", deltadefi_order_id := some "Y" },
   { order_id := "l3", status := "filled", deltadefi_order_id := some "F" }]

/-- The C9 scenario's on-venue open orders: X and Y are registered and
young, Z is unknown and older than the grace window. -/
def c9venue : List ExchangeOrder :=
  [{ order_id := some "X", created_at := some 9999900 },
   { order_id := some "Y", created_at := some 9999950 },
   { order_id := some "Z", created_at := some 9994000 }]

/-- Claim C9, amended: an on-venue open order is classified unregistered
— and hence cancelled by the reaper — iff its effective external id is
nonempty, not among the external ids of the local active orders (states
PENDING, WORKING), and its age is at least (not strictly greater than)
`order_registration_timeout_ms`; in the scenario with local external ids
X, Y and on-venue set X, Y, Z where only Z is older than the grace
window, the reaper cancels exactly Z; and along any cancel trace at
least 0.5 seconds of sleep separate consecutive cancels. -/
theorem C9_amended_reaper (nowMs timeout_ms : ℚ) (registered_ids : List String)
    (exchange_orders orders : List ExchangeOrder) (o : ExchangeOrder) (i : ℕ) :
    (o ∈ findUnregisteredOrders nowMs timeout_ms registered_ids exchange_orders
      ↔ o ∈ exchange_orders ∧ effectiveId o ≠ ""
        ∧ effectiveId o ∉ registered_ids
        ∧ nowMs - orderTime o ≥ timeout_ms)
    ∧ cancelsOf (cancelTrace
        (findUnregisteredOrders 10000000 5000 (getRegisteredOrders c9rows) c9venue) 0)
      = ["Z"]
    ∧ paced (cancelTrace orders i) = true := by
  refine ⟨?_, ?_, ?_⟩
  · constructor
    · intro h
      have hmem := List.mem_of_mem_filter h
      have hcond := List.of_mem_filter h
      simp only [Bool.and_eq_true, decide_eq_true_eq, Bool.not_eq_true',
        decide_eq_false_iff_not, not_lt] at hcond
      exact ⟨hmem, hcond.1.1, hcond.1.2, hcond.2⟩
    · rintro ⟨hmem, h1, h2, h3⟩
      refine List.mem_filter.mpr ⟨hmem, ?_⟩
      simp only [Bool.and_eq_true, decide_eq_true_eq, Bool.not_eq_true',
        decide_eq_false_iff_not, not_lt]
      exact ⟨⟨h1, h2⟩, h3⟩
  · rw [cancelsOf_cancelTrace _ 0]
    have hz : findUnregisteredOrders 10000000 5000 (getRegisteredOrders c9rows) c9venue
        = [{ order_id := some "Z", created_at := some 9994000 }] := by
      norm_num [findUnregisteredOrders, getRegisteredOrders, vActiveOrders,
        c9rows, c9venue, effectiveId, orderTime]
      decide
    rw [hz]
    decide
  · exact pacedFrom_cancelTrace orders i 0 false (by intro h; simp at h)

end TradingBot
